import Mathlib

/-!
Verification of the core chess-engine code of Blunder (pre-release):
bit utilities, board representation, Zobrist hashing, legal move
generation, make/unmake, evaluation and search, shallowly embedded as
executable Lean definitions, together with theorems settling the
specification claims about them.

Machine words are embedded as `Nat` kept below `2 ^ 64`, with wrap-around
made explicit where the Go code relies on it.  The engine numbers the bits
of a word from the most significant end: square `s` occupies bit `63 - s`
of the underlying natural number.
-/

namespace Blunder

set_option maxRecDepth 1000000
set_option maxHeartbeats 2000000

/-- `2 ^ 64`, the modulus of the engine's 64-bit words. -/
def U64 : Nat := 2 ^ 64

/-- All 64 bits set. -/
def mask64 : Nat := U64 - 1

/-- The constant `0x8000000000000000` from the source. -/
def Int64MostSigBitSet : Nat := 0x8000000000000000

/-- Go `^x` on a `uint64` (bitwise complement); arguments are `< 2 ^ 64`. -/
def not64 (x : Nat) : Nat := mask64 ^^^ x

/-- Two's-complement negation `-x` on a `uint64`. -/
def neg64 (x : Nat) : Nat := (U64 - x % U64) % U64

/-- Go subtraction `a - b` on `uint64`, wrapping modulo `2 ^ 64`. -/
def sub64 (a b : Nat) : Nat := (a % U64 + (U64 - b % U64)) % U64

/-- Go multiplication by two on `uint64`, wrapping modulo `2 ^ 64`. -/
def mul2_64 (x : Nat) : Nat := 2 * x % U64

/-- Fuel-bounded count of trailing zero bits; 64 bits of fuel are exact for
the engine's words.  `tzAux 64 0 = 64`, matching `bits.TrailingZeros64`. -/
def tzAux : Nat → Nat → Nat
  | 0, _ => 0
  | fuel + 1, x => if x % 2 = 1 then 0 else tzAux fuel (x / 2) + 1

/-- `bits.TrailingZeros64`. -/
def TrailingZeros64 (x : Nat) : Nat := tzAux 64 x

/-- Accumulator loop for `bits.Reverse64`. -/
def revAux : Nat → Nat → Nat → Nat
  | 0, _, acc => acc
  | fuel + 1, x, acc => revAux fuel (x / 2) (acc * 2 + x % 2)

/-- `bits.Reverse64`: reverse the 64 bits of a word. -/
def Reverse64 (x : Nat) : Nat := revAux 64 x 0

/-- Accumulator loop for `bits.OnesCount64`. -/
def ocAux : Nat → Nat → Nat
  | 0, _ => 0
  | fuel + 1, x => x % 2 + ocAux fuel (x / 2)

/-- `bits.OnesCount64`: population count of a word. -/
def OnesCount64 (x : Nat) : Nat := ocAux 64 x

/-- `setSingleBit` from the source: a word with only the bit of square
`pos` set (bit indexing from the most significant end). -/
def setSingleBit (pos : Nat) : Nat := Int64MostSigBitSet >>> pos

/-- `setBit` from the source (returning the updated word). -/
def setBit (x : Nat) (pos : Nat) : Nat := x ||| setSingleBit pos

/-- `clearBit` from the source (returning the updated word). -/
def clearBit (x : Nat) (pos : Nat) : Nat := x &&& not64 (setSingleBit pos)

/-- `hasBitSet` from the source. -/
def hasBitSet (x : Nat) (pos : Nat) : Bool := 0 < x &&& setSingleBit pos

/-- `getLSBPos` from the source: `63 - bits.TrailingZeros64 x`.  The Go
function returns `-1` on `0`; every embedded call site passes a non-zero
word, and on `0` this `Nat` version truncates to `0` instead. -/
def getLSBPos (x : Nat) : Nat := 63 - TrailingZeros64 x

/-- Second component of `popLSB`: a word holding only the least
significant machine bit of `x` (`x & -x`). -/
def popLSBBit (x : Nat) : Nat := x &&& neg64 x

/-- The remainder of `popLSB`: `x` with its least significant machine bit
cleared (`x & (x - 1)`). -/
def popLSBRest (x : Nat) : Nat := x &&& (x - 1)

/-- The `for bb != 0 { pos, posBB := popLSB(&bb); ... }` loop shape used
throughout the move generator and evaluator, with 64 units of fuel (one
per possible set bit, always sufficient for words below `2 ^ 64`).  The
body receives the square position and single-bit board popped, plus the
running state. -/
def bbLoop {σ : Type} : Nat → Nat → σ → (Nat → Nat → σ → σ) → σ
  | 0, _, st, _ => st
  | fuel + 1, bb, st, body =>
    if bb = 0 then st
    else bbLoop fuel (popLSBRest bb) (body (getLSBPos bb) (popLSBBit bb) st) body

/-! ### Engine constants (from `board.go`, `move.go` and `search.go`) -/

def PawnBB : Nat := 0
def KnightBB : Nat := 1
def BishopBB : Nat := 2
def RookBB : Nat := 3
def QueenBB : Nat := 4
def KingBB : Nat := 5
def WhiteBB : Nat := 6
def BlackBB : Nat := 7

def Pawn : Nat := 0x0
def Knight : Nat := 0x20
def Bishop : Nat := 0x40
def Rook : Nat := 0x60
def Queen : Nat := 0x80
def King : Nat := 0xA0

def White : Nat := 0x18
def Black : Nat := 0x1C
def NoPiece : Nat := 0x0

def PieceMask : Nat := 0xE0
def ColorMask : Nat := 0x1C

def WhiteKingside : Nat := 0x80
def WhiteQueenside : Nat := 0x40
def BlackKingside : Nat := 0x20
def BlackQueenside : Nat := 0x10

def NoEPSquare : Int := -1

def EndgameThreshold : Nat := 12

/-- Move kinds, in the `iota` order of the source. -/
def Quiet : Nat := 0
def Attack : Nat := 1
def AttackEP : Nat := 2
def CastleWKS : Nat := 3
def CastleWQS : Nat := 4
def CastleBKS : Nat := 5
def CastleBQS : Nat := 6
def KnightPromotion : Nat := 7
def BishopPromotion : Nat := 8
def RookPromotion : Nat := 9
def QueenPromotion : Nat := 10

def FromSquareMask : Nat := 0xFC00
def ToSquareMask : Nat := 0x3F0
def MoveTypeMask : Nat := 0xF

def F1_G1 : Nat := 0x600000000000000
def B1_C1_D1 : Nat := 0x7000000000000000
def F8_G8 : Nat := 0x6
def B8_C8_D8 : Nat := 0x70

def A1 : Nat := 0
def C1 : Nat := 2
def D1 : Nat := 3
def E1 : Nat := 4
def F1 : Nat := 5
def G1 : Nat := 6
def H1 : Nat := 7
def A8 : Nat := 56
def C8 : Nat := 58
def D8 : Nat := 59
def E8 : Nat := 60
def F8 : Nat := 61
def G8 : Nat := 62
def H8 : Nat := 63

/-! ### Precomputed masks and attack tables

Modelled from the spec: the table file of the repository is not among the
given sources, only its users are.  Section 4.1 of the spec fixes their
content: "Non-sliders (knight, king, pawn) use fully precomputed
per-square bitboards. Pawn attack and single-push tables are colored",
plus the file/rank/diagonal masks and the between-squares table used by
the hyperbola-quintessence slider computation, with square `0` = a1,
file-major within rank (spec section 3). -/

def fileOf (s : Nat) : Nat := s % 8

def rankOf (s : Nat) : Nat := s / 8

/-- Distance between the files of two squares. -/
def fdist (s t : Nat) : Nat := Int.natAbs ((fileOf s : Int) - (fileOf t : Int))

/-- Distance between the ranks of two squares. -/
def rdist (s t : Nat) : Nat := Int.natAbs ((rankOf s : Int) - (rankOf t : Int))

/-- Build a bitboard from a predicate on squares. -/
def maskOfSquares (p : Nat → Bool) : Nat :=
  (List.range 64).foldl (fun acc s => if p s then setBit acc s else acc) 0

/-- Modelled from the spec: per-square knight attack table. -/
def KnightMoves (s : Nat) : Nat :=
  maskOfSquares fun t =>
    (decide (fdist s t = 1) && decide (rdist s t = 2)) ||
    (decide (fdist s t = 2) && decide (rdist s t = 1))

/-- Modelled from the spec: per-square king attack table. -/
def KingMoves (s : Nat) : Nat :=
  maskOfSquares fun t =>
    decide (t ≠ s) && decide (fdist s t ≤ 1) && decide (rdist s t ≤ 1)

/-- Modelled from the spec: squares attacked by a white pawn on `s`. -/
def WhitePawnAttacks (s : Nat) : Nat :=
  maskOfSquares fun t => decide (rankOf t = rankOf s + 1) && decide (fdist s t = 1)

/-- Modelled from the spec: squares attacked by a black pawn on `s`. -/
def BlackPawnAttacks (s : Nat) : Nat :=
  maskOfSquares fun t => decide (rankOf t + 1 = rankOf s) && decide (fdist s t = 1)

/-- Modelled from the spec: single-push destination of a white pawn. -/
def WhitePawnPushes (s : Nat) : Nat := maskOfSquares fun t => decide (t = s + 8)

/-- Modelled from the spec: single-push destination of a black pawn. -/
def BlackPawnPushes (s : Nat) : Nat := maskOfSquares fun t => decide (t + 8 = s)

/-- Modelled from the spec: the eight squares surrounding a king. -/
def SquaresAroundKing (s : Nat) : Nat := KingMoves s

/-- Modelled from the spec: mask of a rank (index 0 = rank 1). -/
def MaskRank (r : Nat) : Nat := maskOfSquares fun s => decide (rankOf s = r)

/-- Modelled from the spec: mask of a file (index 0 = file a). -/
def MaskFile (f : Nat) : Nat := maskOfSquares fun s => decide (fileOf s = f)

/-- Modelled from the spec: diagonal masks, indexed by `file - rank + 7`. -/
def MaskDiagonal (d : Nat) : Nat :=
  maskOfSquares fun s => decide (fileOf s + 7 = d + rankOf s)

/-- Modelled from the spec: anti-diagonal masks, indexed by
`14 - (rank + file)`. -/
def MaskAntidiagonal (a : Nat) : Nat :=
  maskOfSquares fun s => decide (rankOf s + fileOf s + a = 14)

/-- Rank index of rank 3, used by the white double-push rule. -/
def Rank3 : Nat := 2

/-- Rank index of rank 6, used by the black double-push rule. -/
def Rank6 : Nat := 5

/-- The `Direction` type of the source (an enumeration). -/
abbrev Direction := Nat

def North : Direction := 0
def South : Direction := 1
def East : Direction := 2
def West : Direction := 3
def NorthEast : Direction := 4
def SouthEast : Direction := 5
def NorthWest : Direction := 6
def SouthWest : Direction := 7
def NoDirection : Direction := 8

/-- Sign of an integer, used to model ray directions. -/
def sgn (x : Int) : Int := if 0 < x then 1 else if x < 0 then -1 else 0

/-- Whether two squares share a rank, file, diagonal or anti-diagonal. -/
def sameLine (a b : Nat) : Bool :=
  decide (rankOf a = rankOf b) || decide (fileOf a = fileOf b) ||
  decide (fdist a b = rdist a b)

/-- Chebyshev distance between two squares. -/
def chebyshev (a b : Nat) : Nat := max (fdist a b) (rdist a b)

/-- Whether `t` lies strictly between `a` and `b` on their common line. -/
def onOpenSegment (a b t : Nat) : Bool :=
  (List.range 8).any fun k =>
    decide (0 < k) && decide (k < chebyshev a b) &&
    decide ((fileOf t : Int) = fileOf a + k * sgn ((fileOf b : Int) - fileOf a)) &&
    decide ((rankOf t : Int) = rankOf a + k * sgn ((rankOf b : Int) - rankOf a))

/-- Modelled from the spec: the between-squares table.  Its use in the
check-evasion and pin generators (interpositions via membership, captures
of the checker via `sqPos == checkerPos`, pinned-slider captures of the
pinner) fixes it as the open segment between the two squares together
with the far endpoint, and `0` for squares not on a common line. -/
def LinesBewteen (a b : Nat) : Nat :=
  if a ≠ b ∧ sameLine a b then
    maskOfSquares fun t => onOpenSegment a b t || decide (t = b)
  else 0

/-- Modelled from the spec: the direction from `a` to `b` along their
common ray (only consulted for collinear pairs). -/
def LinesBetweenDirections (a b : Nat) : Direction :=
  let df := sgn ((fileOf b : Int) - fileOf a)
  let dr := sgn ((rankOf b : Int) - rankOf a)
  if df = 0 ∧ dr = 1 then North
  else if df = 0 ∧ dr = -1 then South
  else if df = 1 ∧ dr = 0 then East
  else if df = -1 ∧ dr = 0 then West
  else if df = 1 ∧ dr = 1 then NorthEast
  else if df = 1 ∧ dr = -1 then SouthEast
  else if df = -1 ∧ dr = 1 then NorthWest
  else if df = -1 ∧ dr = -1 then SouthWest
  else NoDirection

/-! ### Piece byte helpers (from `board.go`) -/

/-- `GetPieceType` from the source. -/
def GetPieceType (square : Nat) : Nat := (square &&& PieceMask) >>> 5

/-- `getPieceColor` from the source. -/
def getPieceColor (square : Nat) : Nat := (square &&& ColorMask) >>> 2

/-! ### Zobrist keys

Modelled from the spec: the Zobrist file of the repository is not among
the given sources.  Spec sections 3 and 6 fix the shape: one fixed 64-bit
key per (piece, color, square), one per castling right, one per
en-passant file, and a side-to-move key, laid out polyglot-compatibly;
and the en-passant key participates only when an enemy pawn could
actually capture on the en-passant square (sections 3 and 9).  The
concrete polyglot constants are not reproduced; a fixed injective table
of odd multiples stands in for them, which the theorems below depend on
only through the XOR structure and the non-vanishing of individual
keys. -/
def Random64 (i : Nat) : Nat := (i + 1) * 0x9E3779B97F4A7C15 % U64

/-- Polyglot offset of the side-to-move key. -/
def SideToMove : Nat := 780

/-- Polyglot offset of the white kingside castling key. -/
def CastleWKSHash : Nat := 768

/-- Polyglot offset of the white queenside castling key. -/
def CastleWQSHash : Nat := 769

/-- Polyglot offset of the black kingside castling key. -/
def CastleBKSHash : Nat := 770

/-- Polyglot offset of the black queenside castling key. -/
def CastleBQSHash : Nat := 771

/-- Modelled from the spec: the Zobrist key of a piece byte on a square,
using the polyglot `(2 * kind + colorBit) * 64 + square` layout. -/
def getPieceHash (piece : Nat) (sq : Nat) : Nat :=
  Random64 (64 * (2 * GetPieceType piece + (if getPieceColor piece = WhiteBB then 1 else 0)) + sq % 64)

/-- Modelled from the spec: the Zobrist key of an en-passant file. -/
def getEPFileHash (ep : Int) : Nat := Random64 (772 + (ep % 8).toNat)

/-! ### The board (from `board.go`) -/

/-- The undo record pushed by `DoMove`. -/
structure UndoInfo where
  EPSquare : Int
  CastlingRights : Nat
  HalfMoveClock : Int
  HalfMoveCounter : Int
  FullMoveCounter : Int
  CaptureSq : Nat
  FromSq : Nat
deriving DecidableEq, Inhabited

/-- The `Board` structure of the source.  Word-valued fields are `Nat`
below `2 ^ 64`, Go `int` fields are `Int`, the two fixed-size arrays are
total functions. -/
structure Board where
  PieceBB : Fin 8 → Nat
  Pieces : Fin 64 → Nat
  WhiteToMove : Bool
  EPSquare : Int
  HalfMoveCounter : Int
  FullMoveCounter : Int
  HalfMoveClock : Int
  CastlingRights : Nat
  Hash : Nat
  undoInfoList : Int → UndoInfo
  gamePly : Int

/-- Read `PieceBB[i]` (all source indices are in range; reduction modulo 8
makes the lookup total). -/
def bbGet (f : Fin 8 → Nat) (i : Nat) : Nat := f ⟨i % 8, Nat.mod_lt _ (by decide)⟩

/-- Write `PieceBB[i]`. -/
def bbSet (f : Fin 8 → Nat) (i : Nat) (v : Nat) : Fin 8 → Nat :=
  Function.update f ⟨i % 8, Nat.mod_lt _ (by decide)⟩ v

/-- Read `Pieces[s]`. -/
def sqGet (f : Fin 64 → Nat) (s : Nat) : Nat := f ⟨s % 64, Nat.mod_lt _ (by decide)⟩

/-- Write `Pieces[s]`. -/
def sqSet (f : Fin 64 → Nat) (s : Nat) (v : Nat) : Fin 64 → Nat :=
  Function.update f ⟨s % 64, Nat.mod_lt _ (by decide)⟩ v

/-- `saveState` from the source: push an undo record. -/
def saveStateB (b : Board) (undoInfo : UndoInfo) : Board :=
  { b with gamePly := b.gamePly + 1,
           undoInfoList := Function.update b.undoInfoList (b.gamePly + 1) undoInfo }

/-- `popState` from the source: pop an undo record. -/
def popStateB (b : Board) : UndoInfo × Board :=
  (b.undoInfoList b.gamePly, { b with gamePly := b.gamePly - 1 })

/-- `movePiece` from the source: move the piece on `frm` to the empty
square `to`, updating bitboards, mailbox and hash. -/
def movePiece (b : Board) (frm toSq : Nat) : Board :=
  let piece := sqGet b.Pieces frm
  let pieceType := GetPieceType piece
  let pieceColor := getPieceColor piece
  let bb1 := bbSet b.PieceBB pieceType (clearBit (bbGet b.PieceBB pieceType) frm)
  let bb2 := bbSet bb1 pieceColor (clearBit (bbGet bb1 pieceColor) frm)
  let h1 := b.Hash ^^^ getPieceHash piece frm
  let bb3 := bbSet bb2 pieceType (setBit (bbGet bb2 pieceType) toSq)
  let bb4 := bbSet bb3 pieceColor (setBit (bbGet bb3 pieceColor) toSq)
  let h2 := h1 ^^^ getPieceHash piece toSq
  let p1 := sqSet b.Pieces frm NoPiece
  let p2 := sqSet p1 toSq ((pieceType <<< 5) ||| (pieceColor <<< 2))
  { b with PieceBB := bb4, Pieces := p2, Hash := h2 }

/-- `putPiece` from the source. -/
def putPiece (b : Board) (pieceType pieceColor toSq : Nat) : Board :=
  let bb1 := bbSet b.PieceBB pieceType (setBit (bbGet b.PieceBB pieceType) toSq)
  let bb2 := bbSet bb1 pieceColor (setBit (bbGet bb1 pieceColor) toSq)
  let byte := (pieceType <<< 5) ||| (pieceColor <<< 2)
  { b with PieceBB := bb2, Pieces := sqSet b.Pieces toSq byte,
           Hash := b.Hash ^^^ getPieceHash byte toSq }

/-- `removePiece` from the source. -/
def removePiece (b : Board) (frm : Nat) : Board :=
  let piece := sqGet b.Pieces frm
  let pieceType := GetPieceType piece
  let pieceColor := getPieceColor piece
  let bb1 := bbSet b.PieceBB pieceType (clearBit (bbGet b.PieceBB pieceType) frm)
  let bb2 := bbSet bb1 pieceColor (clearBit (bbGet bb1 pieceColor) frm)
  { b with PieceBB := bb2, Pieces := sqSet b.Pieces frm NoPiece,
           Hash := b.Hash ^^^ getPieceHash piece frm }

/-- Modelled from the spec (sections 3 and 9): whether the en-passant
square participates in the hash — exactly when a pawn of the side to move
could capture on it. -/
def isValidZobristEPSq (b : Board) (epSq : Int) : Bool :=
  if b.WhiteToMove then
    decide (BlackPawnAttacks epSq.toNat &&& bbGet b.PieceBB PawnBB &&& bbGet b.PieceBB WhiteBB ≠ 0)
  else
    decide (WhitePawnAttacks epSq.toNat &&& bbGet b.PieceBB PawnBB &&& bbGet b.PieceBB BlackBB ≠ 0)

/-- Modelled from the spec: the from-scratch Zobrist hash of a position —
XOR of all piece-square keys, the side key when White is to move, the
castling keys of the set rights, and the en-passant file key when it
participates. -/
def initZobristHash (b : Board) : Nat :=
  let h0 := (List.range 64).foldl
    (fun h s =>
      let p := sqGet b.Pieces s
      if p = NoPiece then h else h ^^^ getPieceHash p s) 0
  let h1 := if b.WhiteToMove then h0 ^^^ Random64 SideToMove else h0
  let h2 := if b.CastlingRights &&& WhiteKingside ≠ 0 then h1 ^^^ Random64 CastleWKSHash else h1
  let h3 := if b.CastlingRights &&& WhiteQueenside ≠ 0 then h2 ^^^ Random64 CastleWQSHash else h2
  let h4 := if b.CastlingRights &&& BlackKingside ≠ 0 then h3 ^^^ Random64 CastleBKSHash else h3
  let h5 := if b.CastlingRights &&& BlackQueenside ≠ 0 then h4 ^^^ Random64 CastleBQSHash else h4
  if b.EPSquare ≠ NoEPSquare ∧ isValidZobristEPSq b b.EPSquare then
    h5 ^^^ getEPFileHash b.EPSquare
  else h5

/-! ### Move encoding (from `move.go`) -/

/-- `MakeMove` from the source: 6-bit from square, 6-bit to square, 4-bit
move type packed into 16 bits. -/
def MakeMove (frm toSq moveType : Nat) : Nat := (frm <<< 10) ||| (toSq <<< 4) ||| moveType

/-- `getMoveFromSq` from the source. -/
def getMoveFromSq (move : Nat) : Nat := (move &&& FromSquareMask) >>> 10

/-- `getMoveToSq` from the source. -/
def getMoveToSq (move : Nat) : Nat := (move &&& ToSquareMask) >>> 4

/-- `getMoveType` from the source. -/
def getMoveType (move : Nat) : Nat := move &&& MoveTypeMask

/-- Go `^x` on a `uint8`, used for castling-right updates. -/
def not8 (x : Nat) : Nat := 0xFF ^^^ x

/-! ### Sliding-piece attacks (from `movegen.go`) -/

/-- `genIntercardianlMovesBB` from the source: hyperbola-quintessence
diagonal and anti-diagonal attacks. -/
def genIntercardianlMovesBB (sliderBB occupiedBB : Nat) : Nat :=
  let sliderPos := getLSBPos sliderBB
  let diagonalMask := MaskDiagonal (sliderPos % 8 + 7 - sliderPos / 8)
  let antidiagonalMask := MaskAntidiagonal (14 - (sliderPos / 8 + sliderPos % 8))
  let rhs1 := Reverse64 (sub64 (Reverse64 (occupiedBB &&& diagonalMask)) (mul2_64 (Reverse64 sliderBB)))
  let lhs1 := sub64 (occupiedBB &&& diagonalMask) (mul2_64 sliderBB)
  let diagonalMoves := (rhs1 ^^^ lhs1) &&& diagonalMask
  let rhs2 := Reverse64 (sub64 (Reverse64 (occupiedBB &&& antidiagonalMask)) (mul2_64 (Reverse64 sliderBB)))
  let lhs2 := sub64 (occupiedBB &&& antidiagonalMask) (mul2_64 sliderBB)
  let antidiagonalMoves := (rhs2 ^^^ lhs2) &&& antidiagonalMask
  diagonalMoves ||| antidiagonalMoves

/-- `genCardianlMovesBB` from the source: hyperbola-quintessence rank and
file attacks. -/
def genCardianlMovesBB (sliderBB occupiedBB : Nat) : Nat :=
  let sliderPos := getLSBPos sliderBB
  let fileMask := MaskFile (sliderPos % 8)
  let rankMask := MaskRank (sliderPos / 8)
  let rhs1 := Reverse64 (sub64 (Reverse64 (occupiedBB &&& rankMask)) (mul2_64 (Reverse64 sliderBB)))
  let lhs1 := sub64 (occupiedBB &&& rankMask) (mul2_64 sliderBB)
  let eastWestMoves := (rhs1 ^^^ lhs1) &&& rankMask
  let rhs2 := Reverse64 (sub64 (Reverse64 (occupiedBB &&& fileMask)) (mul2_64 (Reverse64 sliderBB)))
  let lhs2 := sub64 (occupiedBB &&& fileMask) (mul2_64 sliderBB)
  let northSouthMoves := (rhs2 ^^^ lhs2) &&& fileMask
  northSouthMoves ||| eastWestMoves

/-- `attackersOfSquare` from the source: bitboard of the pieces of
`enemyColor` attacking the square of `squareBB`. -/
def attackersOfSquare (b : Board) (enemyColor : Nat) (squareBB usBB : Nat) : Nat :=
  let enemyBB := bbGet b.PieceBB enemyColor
  let enemyBishop := enemyBB &&& bbGet b.PieceBB BishopBB
  let enemyRook := enemyBB &&& bbGet b.PieceBB RookBB
  let enemyQueen := enemyBB &&& bbGet b.PieceBB QueenBB
  let enemyKing := bbGet b.PieceBB enemyColor &&& bbGet b.PieceBB KingBB
  let enemyKnights := enemyBB &&& bbGet b.PieceBB KnightBB
  let enemyPawns := enemyBB &&& bbGet b.PieceBB PawnBB
  let squarePos := getLSBPos squareBB
  let intercardinalRays := genIntercardianlMovesBB squareBB (enemyBB ||| usBB)
  let cardinalRaysRays := genCardianlMovesBB squareBB (enemyBB ||| usBB)
  let a1 := intercardinalRays &&& (enemyBishop ||| enemyQueen)
  let a2 := a1 ||| (cardinalRaysRays &&& (enemyRook ||| enemyQueen))
  let a3 := a2 ||| (KnightMoves squarePos &&& enemyKnights)
  let a4 := a3 ||| (KingMoves squarePos &&& enemyKing)
  if enemyColor = WhiteBB then a4 ||| (BlackPawnAttacks squarePos &&& enemyPawns)
  else a4 ||| (WhitePawnAttacks squarePos &&& enemyPawns)

/-- `squareIsAttacked` from the source: whether the square of `squareBB`
is attacked by `enemyColor`. -/
def squareIsAttacked (b : Board) (enemyColor : Nat) (squareBB usBB : Nat) : Bool :=
  let enemyBB := bbGet b.PieceBB enemyColor
  let enemyBishop := bbGet b.PieceBB enemyColor &&& bbGet b.PieceBB BishopBB
  let enemyRook := bbGet b.PieceBB enemyColor &&& bbGet b.PieceBB RookBB
  let enemyQueen := bbGet b.PieceBB enemyColor &&& bbGet b.PieceBB QueenBB
  let enemyKnights := bbGet b.PieceBB enemyColor &&& bbGet b.PieceBB KnightBB
  let enemyKing := bbGet b.PieceBB enemyColor &&& bbGet b.PieceBB KingBB
  let enemyPawns := bbGet b.PieceBB enemyColor &&& bbGet b.PieceBB PawnBB
  let squarePos := getLSBPos squareBB
  let intercardinalRays := genIntercardianlMovesBB squareBB (enemyBB ||| usBB)
  let cardinalRaysRays := genCardianlMovesBB squareBB (enemyBB ||| usBB)
  if intercardinalRays &&& (enemyBishop ||| enemyQueen) ≠ 0 then true
  else if cardinalRaysRays &&& (enemyRook ||| enemyQueen) ≠ 0 then true
  else if KnightMoves squarePos &&& enemyKnights ≠ 0 then true
  else if KingMoves squarePos &&& enemyKing ≠ 0 then true
  else if enemyColor = WhiteBB ∧ BlackPawnAttacks squarePos &&& enemyPawns ≠ 0 then true
  else if enemyColor = BlackBB ∧ WhitePawnAttacks squarePos &&& enemyPawns ≠ 0 then true
  else false

/-! ### Move generation (from `movegen.go`) -/

/-- `makePromotionMoves` from the source. -/
def makePromotionMoves (frm toSq : Nat) (moves : List Nat) : List Nat :=
  moves ++ [MakeMove frm toSq KnightPromotion, MakeMove frm toSq BishopPromotion,
            MakeMove frm toSq RookPromotion, MakeMove frm toSq QueenPromotion]

/-- `genMovesFromBB` from the source. -/
def genMovesFromBB (frm : Nat) (movesBB enemyBB : Nat) (moves : List Nat) : List Nat :=
  bbLoop 64 movesBB moves fun toSq toBB acc =>
    acc ++ [MakeMove frm toSq (if toBB &&& enemyBB ≠ 0 then Attack else Quiet)]

/-- `directionIsCardinal` from the source. -/
def directionIsCardinal (direction : Direction) : Bool :=
  direction = North ∨ direction = South ∨ direction = East ∨ direction = West

/-- `directionIsIntercardinal` from the source. -/
def directionIsIntercardinal (direction : Direction) : Bool :=
  direction = NorthEast ∨ direction = SouthEast ∨ direction = NorthWest ∨ direction = SouthWest

/-- `directionIsNorthOrSouth` from the source. -/
def directionIsNorthOrSouth (direction : Direction) : Bool :=
  direction = North ∨ direction = South

/-- `genPinnedPiecesMoves` from the source: emit the moves of pinned
pieces and return the bitboard of pinned pieces together with the updated
move list. -/
def genPinnedPiecesMoves (b : Board) (enemyColor usColor : Nat) (kingBB : Nat)
    (moves : List Nat) : Nat × List Nat :=
  let enemyBB := bbGet b.PieceBB enemyColor
  let enemyBishops := enemyBB &&& bbGet b.PieceBB BishopBB
  let enemyRooks := enemyBB &&& bbGet b.PieceBB RookBB
  let enemyQueens := enemyBB &&& bbGet b.PieceBB QueenBB
  let usBB := bbGet b.PieceBB usColor
  let pinnersBB := (genIntercardianlMovesBB kingBB enemyBB &&& (enemyBishops ||| enemyQueens)) |||
                   (genCardianlMovesBB kingBB enemyBB &&& (enemyRooks ||| enemyQueens))
  let kingPos := getLSBPos kingBB
  bbLoop 64 pinnersBB (0, moves) fun pinnerPos pinnerBB st =>
    let pinnedBBAcc := st.1
    let ms := st.2
    let possiblyPinnedBB := LinesBewteen kingPos pinnerPos &&& usBB
    if OnesCount64 possiblyPinnedBB = 1 then
      let pinnedBB2 := pinnedBBAcc ||| possiblyPinnedBB
      let pinnedPos := getLSBPos possiblyPinnedBB
      let pinnerType := GetPieceType (sqGet b.Pieces pinnerPos)
      let pinnedType := GetPieceType (sqGet b.Pieces pinnedPos)
      let pinnerRayDirection := LinesBetweenDirections kingPos pinnerPos
      let rayBetween := LinesBewteen kingPos pinnerPos &&& not64 possiblyPinnedBB
      if pinnerType = BishopBB ∧ pinnedType = BishopBB then
        (pinnedBB2, genMovesFromBB pinnedPos rayBetween enemyBB ms)
      else if pinnerType = RookBB ∧ pinnedType = RookBB then
        (pinnedBB2, genMovesFromBB pinnedPos rayBetween enemyBB ms)
      else if pinnerType = QueenBB ∧ pinnedType = QueenBB then
        (pinnedBB2, genMovesFromBB pinnedPos rayBetween enemyBB ms)
      else if (pinnerType = BishopBB ∨ pinnerType = RookBB) ∧ pinnedType = QueenBB then
        (pinnedBB2, genMovesFromBB pinnedPos rayBetween enemyBB ms)
      else if pinnerType = QueenBB ∧ pinnedType = BishopBB ∧ directionIsIntercardinal pinnerRayDirection then
        (pinnedBB2, genMovesFromBB pinnedPos rayBetween enemyBB ms)
      else if pinnerType = QueenBB ∧ pinnedType = RookBB ∧ directionIsCardinal pinnerRayDirection then
        (pinnedBB2, genMovesFromBB pinnedPos rayBetween enemyBB ms)
      else if (pinnerType = RookBB ∨ pinnerType = QueenBB) ∧ pinnedType = PawnBB ∧
              directionIsNorthOrSouth pinnerRayDirection then
        let pawnPush0 := BlackPawnPushes pinnedPos &&& not64 (enemyBB ||| usBB)
        let pawnPush1 := pawnPush0 ||| ((pawnPush0 &&& MaskRank Rank6) <<< 8 % U64 &&& not64 (enemyBB ||| usBB))
        let pawnPush :=
          if usColor = WhiteBB then
            let w0 := WhitePawnPushes pinnedPos &&& not64 (enemyBB ||| usBB)
            w0 ||| ((w0 &&& MaskRank Rank3) >>> 8 &&& not64 (enemyBB ||| usBB))
          else pawnPush1
        (pinnedBB2, genMovesFromBB pinnedPos pawnPush 0 ms)
      else if (pinnerType = BishopBB ∨ pinnerType = QueenBB) ∧ pinnedType = PawnBB ∧
              directionIsIntercardinal pinnerRayDirection then
        let pawnAttacks := if usColor = WhiteBB then WhitePawnAttacks pinnedPos
                           else BlackPawnAttacks pinnedPos
        if pawnAttacks &&& pinnerBB ≠ 0 then
          if usColor = WhiteBB ∧ 56 ≤ pinnerPos ∧ pinnerPos ≤ 63 then
            (pinnedBB2, makePromotionMoves pinnedPos pinnerPos ms)
          else if usColor = BlackBB ∧ pinnerPos ≤ 7 then
            (pinnedBB2, makePromotionMoves pinnedPos pinnerPos ms)
          else (pinnedBB2, ms ++ [MakeMove pinnedPos pinnerPos Attack])
        else (pinnedBB2, ms)
      else (pinnedBB2, ms)
    else (pinnedBBAcc, ms)

/-- `genWhitePawnMoves` from the source.  The en-passant legality test
temporarily mutates the board, so the (possibly) updated board is
threaded through and returned. -/
def genWhitePawnMoves (b : Board) (pawnsBB enemyBB usBB : Nat) (epSq : Int)
    (moves : List Nat) : Board × List Nat :=
  let ourKing := bbGet b.PieceBB KingBB &&& bbGet b.PieceBB WhiteBB
  bbLoop 64 pawnsBB (b, moves) fun frm _ st =>
    let bcur := st.1
    let pawnOnePush := WhitePawnPushes frm &&& not64 (usBB ||| enemyBB)
    let pawnPush := pawnOnePush ||| ((pawnOnePush &&& MaskRank Rank3) >>> 8 &&& not64 (usBB ||| enemyBB))
    let pawnAttacks := WhitePawnAttacks frm
    let ms1 := bbLoop 64 pawnPush st.2 fun toSq _ acc =>
      if 56 ≤ toSq ∧ toSq ≤ 63 then makePromotionMoves frm toSq acc
      else acc ++ [MakeMove frm toSq Quiet]
    bbLoop 64 pawnAttacks (bcur, ms1) fun toSq toBB st2 =>
      let bc := st2.1
      let acc := st2.2
      if (toSq : Int) = epSq then
        let capturePos := toSq - 8
        let b1 := movePiece bc frm toSq
        let b2 := removePiece b1 capturePos
        let acc2 := if !squareIsAttacked b2 BlackBB ourKing (bbGet b2.PieceBB WhiteBB) then
                      acc ++ [MakeMove frm toSq AttackEP]
                    else acc
        let b3 := movePiece b2 toSq frm
        let b4 := putPiece b3 PawnBB BlackBB capturePos
        (b4, acc2)
      else if toBB &&& enemyBB ≠ 0 then
        if 56 ≤ toSq ∧ toSq ≤ 63 then (bc, makePromotionMoves frm toSq acc)
        else (bc, acc ++ [MakeMove frm toSq Attack])
      else (bc, acc)

/-- `genBlackPawnMoves` from the source, with the same board threading. -/
def genBlackPawnMoves (b : Board) (pawnsBB enemyBB usBB : Nat) (epSq : Int)
    (moves : List Nat) : Board × List Nat :=
  let ourKing := bbGet b.PieceBB KingBB &&& bbGet b.PieceBB BlackBB
  bbLoop 64 pawnsBB (b, moves) fun frm _ st =>
    let bcur := st.1
    let pawnOnePush := BlackPawnPushes frm &&& not64 (usBB ||| enemyBB)
    let pawnPush := pawnOnePush ||| ((pawnOnePush &&& MaskRank Rank6) <<< 8 % U64 &&& not64 (usBB ||| enemyBB))
    let pawnAttacks := BlackPawnAttacks frm
    let ms1 := bbLoop 64 pawnPush st.2 fun toSq _ acc =>
      if toSq ≤ 7 then makePromotionMoves frm toSq acc
      else acc ++ [MakeMove frm toSq Quiet]
    bbLoop 64 pawnAttacks (bcur, ms1) fun toSq toBB st2 =>
      let bc := st2.1
      let acc := st2.2
      if (toSq : Int) = epSq then
        let capturePos := toSq + 8
        let b1 := movePiece bc frm toSq
        let b2 := removePiece b1 capturePos
        let acc2 := if !squareIsAttacked b2 WhiteBB ourKing (bbGet b2.PieceBB BlackBB) then
                      acc ++ [MakeMove frm toSq AttackEP]
                    else acc
        let b3 := movePiece b2 toSq frm
        let b4 := putPiece b3 PawnBB WhiteBB capturePos
        (b4, acc2)
      else if toBB &&& enemyBB ≠ 0 then
        if toSq ≤ 7 then (bc, makePromotionMoves frm toSq acc)
        else (bc, acc ++ [MakeMove frm toSq Attack])
      else (bc, acc)

/-- `genPawnMoves` from the source. -/
def genPawnMoves (b : Board) (pawnsBB enemyBB usBB : Nat) (moves : List Nat) :
    Board × List Nat :=
  if b.WhiteToMove then genWhitePawnMoves b pawnsBB enemyBB usBB b.EPSquare moves
  else genBlackPawnMoves b pawnsBB enemyBB usBB b.EPSquare moves

/-- `genKnightMoves` from the source. -/
def genKnightMoves (knightsBB enemyBB usBB : Nat) (moves : List Nat) : List Nat :=
  bbLoop 64 knightsBB moves fun frm _ ms =>
    bbLoop 64 (KnightMoves frm &&& not64 usBB) ms fun toSq toBB acc =>
      acc ++ [MakeMove frm toSq (if toBB &&& enemyBB ≠ 0 then Attack else Quiet)]

/-- `genBishopMoves` from the source. -/
def genBishopMoves (bishopsBB enemyBB usBB : Nat) (moves : List Nat) : List Nat :=
  bbLoop 64 bishopsBB moves fun frm frmBB ms =>
    bbLoop 64 (genIntercardianlMovesBB frmBB (enemyBB ||| usBB) &&& not64 usBB) ms fun toSq toBB acc =>
      acc ++ [MakeMove frm toSq (if toBB &&& enemyBB ≠ 0 then Attack else Quiet)]

/-- `genRookMoves` from the source. -/
def genRookMoves (rooksBB enemyBB usBB : Nat) (moves : List Nat) : List Nat :=
  bbLoop 64 rooksBB moves fun frm frmBB ms =>
    bbLoop 64 (genCardianlMovesBB frmBB (enemyBB ||| usBB) &&& not64 usBB) ms fun toSq toBB acc =>
      acc ++ [MakeMove frm toSq (if toBB &&& enemyBB ≠ 0 then Attack else Quiet)]

/-- `genQueenMoves` from the source: bishop moves then rook moves. -/
def genQueenMoves (queensBB enemyBB usBB : Nat) (moves : List Nat) : List Nat :=
  genRookMoves queensBB enemyBB usBB (genBishopMoves queensBB enemyBB usBB moves)

/-- `genKingMoves` from the source. -/
def genKingMoves (b : Board) (enemyColor : Nat) (kingBB usBB : Nat)
    (moves : List Nat) : List Nat :=
  let frm := getLSBPos kingBB
  let enemyBB := bbGet b.PieceBB enemyColor
  bbLoop 64 (KingMoves frm &&& not64 usBB) moves fun toSq toBB acc =>
    if squareIsAttacked b enemyColor toBB usBB then acc
    else acc ++ [MakeMove frm toSq (if toBB &&& enemyBB ≠ 0 then Attack else Quiet)]

/-- `genCastlingMoves` from the source. -/
def genCastlingMoves (b : Board) (enemyColor : Nat) (usBB : Nat)
    (moves : List Nat) : List Nat :=
  let allPieces := bbGet b.PieceBB enemyColor ||| usBB
  if b.WhiteToMove then
    let ms1 :=
      if b.CastlingRights &&& WhiteKingside ≠ 0 ∧ allPieces &&& F1_G1 = 0 ∧
         !squareIsAttacked b enemyColor (setSingleBit 5) usBB ∧
         !squareIsAttacked b enemyColor (setSingleBit 6) usBB then
        moves ++ [MakeMove 4 6 CastleWKS]
      else moves
    if b.CastlingRights &&& WhiteQueenside ≠ 0 ∧ allPieces &&& B1_C1_D1 = 0 ∧
       !squareIsAttacked b enemyColor (setSingleBit 2) usBB ∧
       !squareIsAttacked b enemyColor (setSingleBit 3) usBB then
      ms1 ++ [MakeMove 4 2 CastleWQS]
    else ms1
  else
    let ms1 :=
      if b.CastlingRights &&& BlackKingside ≠ 0 ∧ allPieces &&& F8_G8 = 0 ∧
         !squareIsAttacked b enemyColor (setSingleBit 61) usBB ∧
         !squareIsAttacked b enemyColor (setSingleBit 62) usBB then
        moves ++ [MakeMove 60 62 CastleBKS]
      else moves
    if b.CastlingRights &&& BlackQueenside ≠ 0 ∧ allPieces &&& B8_C8_D8 = 0 ∧
       !squareIsAttacked b enemyColor (setSingleBit 58) usBB ∧
       !squareIsAttacked b enemyColor (setSingleBit 59) usBB then
      ms1 ++ [MakeMove 60 58 CastleBQS]
    else ms1

/-- `genCheckEvasionMoves` from the source. -/
def genCheckEvasionMoves (b : Board) (enemyColor usColor : Nat)
    (kingBB checkersBB notPinnedMask : Nat) (moves : List Nat) : Board × List Nat :=
  let kingPos := getLSBPos kingBB
  let usBB := bbGet b.PieceBB usColor
  let enemyBB := bbGet b.PieceBB enemyColor
  let ourPawns := bbGet b.PieceBB PawnBB &&& usBB &&& notPinnedMask
  let st := genPawnMoves b ourPawns enemyBB usBB []
  let b1 := st.1
  let pseduolegalPawnMoves := st.2
  let ms1 := genKingMoves b1 enemyColor kingBB (usBB &&& not64 kingBB) moves
  if 1 < OnesCount64 checkersBB then (b1, ms1)
  else
    let checkerPos := getLSBPos checkersBB
    let checkerType := GetPieceType (sqGet b1.Pieces checkerPos)
    if checkerType = KnightBB then
      let ms2 := pseduolegalPawnMoves.foldl
        (fun acc move =>
          if getMoveType move = Attack ∧ getMoveToSq move = checkerPos then acc ++ [move]
          else acc) ms1
      let sqProtectorsBB := attackersOfSquare b1 usColor checkersBB enemyBB &&& notPinnedMask
      let ms3 := bbLoop 64 sqProtectorsBB ms2 fun protectorPos _ acc =>
        let protectorType := GetPieceType (sqGet b1.Pieces protectorPos)
        if protectorType ≠ KingBB ∧ protectorType ≠ PawnBB then
          acc ++ [MakeMove protectorPos checkerPos Attack]
        else acc
      (b1, ms3)
    else
      let betweenBB := LinesBewteen kingPos checkerPos
      let ms2 := pseduolegalPawnMoves.foldl
        (fun acc move =>
          let toSq := getMoveToSq move
          let moveType := getMoveType move
          if setSingleBit toSq &&& betweenBB ≠ 0 then acc ++ [move]
          else if moveType = AttackEP then
            let capturePos : Int := if usColor = WhiteBB then (toSq : Int) - 8 else (toSq : Int) + 8
            if capturePos = (checkerPos : Int) then acc ++ [move] else acc
          else if moveType = Attack ∧ toSq = checkerPos then acc ++ [move]
          else acc) ms1
      let ms3 := bbLoop 64 betweenBB ms2 fun sqPos sqBB acc =>
        let ourSqProtectors := attackersOfSquare b1 usColor sqBB enemyBB &&& notPinnedMask
        bbLoop 64 ourSqProtectors acc fun protectorPos _ acc2 =>
          let protectorType := GetPieceType (sqGet b1.Pieces protectorPos)
          if protectorType ≠ KingBB ∧ protectorType ≠ PawnBB then
            acc2 ++ [MakeMove protectorPos sqPos (if sqPos = checkerPos then Attack else Quiet)]
          else acc2
      (b1, ms3)

/-- `GenLegalMoves` from the source: compute all legal moves for the side
to move.  The board is threaded through (the en-passant legality test
mutates it transiently) and returned alongside the move list. -/
def GenLegalMoves (b : Board) : Board × List Nat :=
  let usColor := if b.WhiteToMove then WhiteBB else BlackBB
  let enemyColor := if b.WhiteToMove then BlackBB else WhiteBB
  let enemyBB := bbGet b.PieceBB enemyColor
  let usBB := bbGet b.PieceBB usColor
  let pawnsBB := bbGet b.PieceBB PawnBB &&& usBB
  let knightsBB := bbGet b.PieceBB KnightBB &&& usBB
  let bishopsBB := bbGet b.PieceBB BishopBB &&& usBB
  let rooksBB := bbGet b.PieceBB RookBB &&& usBB
  let queensBB := bbGet b.PieceBB QueenBB &&& usBB
  let kingBB := bbGet b.PieceBB KingBB &&& usBB
  let checkersBB := attackersOfSquare b enemyColor kingBB usBB
  let pinSt := genPinnedPiecesMoves b enemyColor usColor kingBB []
  let notPinnedMask := not64 pinSt.1
  if OnesCount64 checkersBB = 0 then
    let pawnSt := genPawnMoves b (pawnsBB &&& notPinnedMask) enemyBB usBB pinSt.2
    let b1 := pawnSt.1
    let m1 := genKnightMoves (knightsBB &&& notPinnedMask) enemyBB usBB pawnSt.2
    let m2 := genBishopMoves (bishopsBB &&& notPinnedMask) enemyBB usBB m1
    let m3 := genRookMoves (rooksBB &&& notPinnedMask) enemyBB usBB m2
    let m4 := genQueenMoves (queensBB &&& notPinnedMask) enemyBB usBB m3
    let m5 := genKingMoves b1 enemyColor kingBB usBB m4
    let m6 := genCastlingMoves b1 enemyColor usBB m5
    (b1, m6)
  else
    genCheckEvasionMoves b enemyColor usColor kingBB checkersBB notPinnedMask []

/-! ### Make and unmake (from `board.go`) -/

/-- The castling-rights hash update shared verbatim by `DoMove` and
`UndoMove`: XOR out the key of every right set in `oldCR` but clear in
`newCR`, guarded by `newCR != oldCR`. -/
def castleHashUpdate (h : Nat) (newCR oldCR : Nat) : Nat :=
  if newCR ≠ oldCR then
    let h1 := if oldCR &&& WhiteKingside ≠ 0 ∧ newCR &&& WhiteKingside = 0 then
                h ^^^ Random64 CastleWKSHash else h
    let h2 := if oldCR &&& WhiteQueenside ≠ 0 ∧ newCR &&& WhiteQueenside = 0 then
                h1 ^^^ Random64 CastleWQSHash else h1
    let h3 := if oldCR &&& BlackKingside ≠ 0 ∧ newCR &&& BlackKingside = 0 then
                h2 ^^^ Random64 CastleBKSHash else h2
    if oldCR &&& BlackQueenside ≠ 0 ∧ newCR &&& BlackQueenside = 0 then
      h3 ^^^ Random64 CastleBQSHash else h3
  else h

/-- The castling-rights recomputation of `DoMove`: clear every right whose
king or rook is no longer on its home square. -/
def updateCastlingRights (b : Board) : Nat :=
  let cr1 := if GetPieceType (sqGet b.Pieces E1) ≠ KingBB then
               b.CastlingRights &&& not8 WhiteKingside &&& not8 WhiteQueenside
             else b.CastlingRights
  let cr2 := if GetPieceType (sqGet b.Pieces H1) ≠ RookBB then cr1 &&& not8 WhiteKingside else cr1
  let cr3 := if GetPieceType (sqGet b.Pieces A1) ≠ RookBB then cr2 &&& not8 WhiteQueenside else cr2
  let cr4 := if GetPieceType (sqGet b.Pieces E8) ≠ KingBB then
               cr3 &&& not8 BlackKingside &&& not8 BlackQueenside
             else cr3
  let cr5 := if GetPieceType (sqGet b.Pieces H8) ≠ RookBB then cr4 &&& not8 BlackKingside else cr4
  if GetPieceType (sqGet b.Pieces A8) ≠ RookBB then cr5 &&& not8 BlackQueenside else cr5

/-- The move-kind dispatch of `DoMove` (its `switch` statement), returning
the undo record (updated with the captured pawn on en passant) and the
board after the piece edits. -/
def doMoveDispatch (b2 : Board) (undoInfo0 : UndoInfo) (frm toSq moveType usColor : Nat) :
    UndoInfo × Board :=
  if moveType = CastleWKS then (undoInfo0, movePiece (movePiece b2 E1 G1) H1 F1)
  else if moveType = CastleWQS then (undoInfo0, movePiece (movePiece b2 E1 C1) A1 D1)
  else if moveType = CastleBKS then (undoInfo0, movePiece (movePiece b2 E8 G8) H8 F8)
  else if moveType = CastleBQS then (undoInfo0, movePiece (movePiece b2 E8 C8) A8 D8)
  else if moveType = KnightPromotion then
    let bA := removePiece b2 frm
    let bB := if undoInfo0.CaptureSq ≠ NoPiece then removePiece bA toSq else bA
    (undoInfo0, putPiece bB KnightBB usColor toSq)
  else if moveType = BishopPromotion then
    let bA := removePiece b2 frm
    let bB := if undoInfo0.CaptureSq ≠ NoPiece then removePiece bA toSq else bA
    (undoInfo0, putPiece bB BishopBB usColor toSq)
  else if moveType = RookPromotion then
    let bA := removePiece b2 frm
    let bB := if undoInfo0.CaptureSq ≠ NoPiece then removePiece bA toSq else bA
    (undoInfo0, putPiece bB RookBB usColor toSq)
  else if moveType = QueenPromotion then
    let bA := removePiece b2 frm
    let bB := if undoInfo0.CaptureSq ≠ NoPiece then removePiece bA toSq else bA
    (undoInfo0, putPiece bB QueenBB usColor toSq)
  else if moveType = AttackEP then
    let capturePos := if usColor = WhiteBB then toSq - 8 else toSq + 8
    let u2 := { undoInfo0 with CaptureSq := sqGet b2.Pieces capturePos }
    (u2, movePiece (removePiece b2 capturePos) frm toSq)
  else if moveType = Attack then
    (undoInfo0, movePiece (removePiece b2 toSq) frm toSq)
  else if moveType = Quiet then
    (undoInfo0, movePiece b2 frm toSq)
  else (undoInfo0, b2)

/-- The clock, full-move, en-passant and castling-rights bookkeeping of
`DoMove` after the piece edits. -/
def doMoveCounters (b3 : Board) (undoInfo : UndoInfo) (frm toSq moveType usColor : Nat) : Board :=
  let b4 := { b3 with HalfMoveClock := b3.HalfMoveClock + 1,
                      HalfMoveCounter := b3.HalfMoveCounter + 1 }
  let b5 := if GetPieceType undoInfo.FromSq = PawnBB ∨ moveType = Attack ∨ moveType = AttackEP then
              { b4 with HalfMoveClock := 0 }
            else b4
  let b6 := if b5.HalfMoveCounter % 2 = 0 then
              { b5 with FullMoveCounter := b5.FullMoveCounter + 1 }
            else b5
  let b7 := if GetPieceType undoInfo.FromSq = PawnBB ∧ ((frm : Int) - toSq).natAbs = 16 then
              { b6 with EPSquare := if usColor = WhiteBB then (toSq : Int) - 8 else (toSq : Int) + 8 }
            else b6
  let b8 := { b7 with CastlingRights := updateCastlingRights b7 }
  { b8 with Hash := castleHashUpdate b8.Hash b8.CastlingRights undoInfo.CastlingRights }

/-- `DoMove` from the source: apply a move, updating bitboards, mailbox,
counters, castling rights, en-passant state and hash, optionally pushing
an undo record.  (On an `Attack` move capturing a king the Go code panics
after printing the board; the embedding proceeds with the same board
edits, and no theorem below exercises that input.) -/
def DoMove (b : Board) (move : Nat) (saveState : Bool) : Board :=
  let frm := getMoveFromSq move
  let toSq := getMoveToSq move
  let moveType := getMoveType move
  let usColor := if b.WhiteToMove then WhiteBB else BlackBB
  let undoInfo0 : UndoInfo :=
    { CastlingRights := b.CastlingRights, EPSquare := b.EPSquare,
      HalfMoveClock := b.HalfMoveClock, HalfMoveCounter := b.HalfMoveCounter,
      FullMoveCounter := b.FullMoveCounter, CaptureSq := sqGet b.Pieces toSq,
      FromSq := sqGet b.Pieces frm }
  let b1 := if b.EPSquare ≠ NoEPSquare ∧ isValidZobristEPSq b b.EPSquare then
              { b with Hash := b.Hash ^^^ getEPFileHash b.EPSquare }
            else b
  let b2 := { b1 with EPSquare := NoEPSquare }
  let dispatch := doMoveDispatch b2 undoInfo0 frm toSq moveType usColor
  let undoInfo := dispatch.1
  let b9 := doMoveCounters dispatch.2 undoInfo frm toSq moveType usColor
  let b10 := { b9 with WhiteToMove := !b9.WhiteToMove, Hash := b9.Hash ^^^ Random64 SideToMove }
  let b11 := if b10.EPSquare ≠ NoEPSquare ∧ isValidZobristEPSq b10 b10.EPSquare then
               { b10 with Hash := b10.Hash ^^^ getEPFileHash b10.EPSquare }
             else b10
  if saveState then saveStateB b11 undoInfo else b11

/-- The move-kind dispatch of `UndoMove` (its `switch` statement). -/
def undoMoveDispatch (b6 : Board) (undoInfo : UndoInfo) (frm toSq moveType usColor : Nat) : Board :=
  if moveType = CastleWKS then movePiece (movePiece b6 G1 E1) F1 H1
  else if moveType = CastleWQS then movePiece (movePiece b6 C1 E1) D1 A1
  else if moveType = CastleBKS then movePiece (movePiece b6 G8 E8) F8 H8
  else if moveType = CastleBQS then movePiece (movePiece b6 C8 E8) D8 A8
  else if moveType = KnightPromotion ∨ moveType = BishopPromotion ∨
          moveType = RookPromotion ∨ moveType = QueenPromotion then
    let bA := removePiece b6 toSq
    let bB := if undoInfo.CaptureSq ≠ NoPiece then
                putPiece bA (GetPieceType undoInfo.CaptureSq) (getPieceColor undoInfo.CaptureSq) toSq
              else bA
    putPiece bB PawnBB usColor frm
  else if moveType = AttackEP then
    let capturePos := if usColor = WhiteBB then toSq - 8 else toSq + 8
    putPiece (movePiece b6 toSq frm) PawnBB (getPieceColor undoInfo.CaptureSq) capturePos
  else if moveType = Attack then
    let bA := removePiece b6 toSq
    let bB := putPiece bA (GetPieceType undoInfo.CaptureSq) (getPieceColor undoInfo.CaptureSq) toSq
    putPiece bB (GetPieceType undoInfo.FromSq) usColor frm
  else if moveType = Quiet then movePiece b6 toSq frm
  else b6

/-- `UndoMove` from the source: reverse a move using the popped undo
record. -/
def UndoMove (b : Board) (move : Nat) : Board :=
  let popped := popStateB b
  let undoInfo := popped.1
  let b0 := popped.2
  let b1 := { b0 with HalfMoveClock := undoInfo.HalfMoveClock,
                      HalfMoveCounter := undoInfo.HalfMoveCounter,
                      FullMoveCounter := undoInfo.FullMoveCounter }
  let b2 := { b1 with WhiteToMove := !b1.WhiteToMove, Hash := b1.Hash ^^^ Random64 SideToMove }
  let frm := getMoveFromSq move
  let toSq := getMoveToSq move
  let moveType := getMoveType move
  let usColor := if b2.WhiteToMove then WhiteBB else BlackBB
  let b3 := { b2 with Hash := castleHashUpdate b2.Hash b2.CastlingRights undoInfo.CastlingRights }
  let b4 := { b3 with CastlingRights := undoInfo.CastlingRights }
  let b5 := if b4.EPSquare ≠ NoEPSquare ∧ isValidZobristEPSq b4 b4.EPSquare then
              { b4 with Hash := b4.Hash ^^^ getEPFileHash b4.EPSquare }
            else b4
  let b6 := { b5 with EPSquare := undoInfo.EPSquare }
  let b7 := undoMoveDispatch b6 undoInfo frm toSq moveType usColor
  if undoInfo.EPSquare ≠ NoEPSquare ∧ isValidZobristEPSq b7 undoInfo.EPSquare then
    { b7 with Hash := b7.Hash ^^^ getEPFileHash b7.EPSquare }
  else b7

/-- `IsEndgame` from the source. -/
def IsEndgame (b : Board) : Bool :=
  EndgameThreshold ≤ OnesCount64 (bbGet b.PieceBB WhiteBB ||| bbGet b.PieceBB BlackBB)

/-- `InCheck` from the source. -/
def InCheck (b : Board) : Bool :=
  if b.WhiteToMove then
    squareIsAttacked b BlackBB (bbGet b.PieceBB KingBB &&& bbGet b.PieceBB WhiteBB)
      (bbGet b.PieceBB WhiteBB)
  else
    squareIsAttacked b WhiteBB (bbGet b.PieceBB KingBB &&& bbGet b.PieceBB BlackBB)
      (bbGet b.PieceBB BlackBB)

/-! ### FEN loading (from `board.go` and `utils.go`)

Go panics (explicit `panic` and out-of-range indexing) are modelled as
`none`; the caller of the Go function never receives an error value. -/

/-- `strings.Fields`: split on blanks, dropping empty fields. -/
def fieldsAux : List Char → List Char → List (List Char)
  | [], cur => if cur = [] then [] else [cur.reverse]
  | c :: rest, cur =>
    if c = ' ' then
      if cur = [] then fieldsAux rest [] else cur.reverse :: fieldsAux rest []
    else fieldsAux rest (c :: cur)

/-- `strings.Fields` applied to a string. -/
def fieldsOf (s : String) : List (List Char) := fieldsAux s.toList []

/-- `charToDigit` from the source (`int(r - '0')`, a wrapping byte
subtraction widened to `int`). -/
def charToDigit (c : Char) : Int := ((c.toNat + 256 - 48) % 256 : Nat)

/-- `CoordinateToPos` from the source; `none` models the index panic on a
coordinate shorter than two characters. -/
def CoordinateToPos (cs : List Char) : Option Int :=
  match cs with
  | c0 :: c1 :: _ => some ((charToDigit c1 - 1) * 8 + ((c0.toNat + 256 - 97) % 256 : Nat))
  | _ => none

/-- The bitboard indices and mailbox byte denoted by a FEN piece letter. -/
def pieceOfChar (c : Char) : Option (Nat × Nat × Nat) :=
  if c = 'p' then some (PawnBB, BlackBB, Pawn ||| Black)
  else if c = 'n' then some (KnightBB, BlackBB, Knight ||| Black)
  else if c = 'b' then some (BishopBB, BlackBB, Bishop ||| Black)
  else if c = 'r' then some (RookBB, BlackBB, Rook ||| Black)
  else if c = 'q' then some (QueenBB, BlackBB, Queen ||| Black)
  else if c = 'k' then some (KingBB, BlackBB, King ||| Black)
  else if c = 'P' then some (PawnBB, WhiteBB, Pawn ||| White)
  else if c = 'N' then some (KnightBB, WhiteBB, Knight ||| White)
  else if c = 'B' then some (BishopBB, WhiteBB, Bishop ||| White)
  else if c = 'R' then some (RookBB, WhiteBB, Rook ||| White)
  else if c = 'Q' then some (QueenBB, WhiteBB, Queen ||| White)
  else if c = 'K' then some (KingBB, WhiteBB, King ||| White)
  else none

/-- One piece-letter case of the FEN placement loop: set the two bitboard
bits and the mailbox byte. -/
def placePiece (b : Board) (t col byte sq : Nat) : Board :=
  let f1 := bbSet b.PieceBB t (setBit (bbGet b.PieceBB t) sq)
  let f2 := bbSet f1 col (setBit (bbGet f1 col) sq)
  { b with PieceBB := f2, Pieces := sqSet b.Pieces sq byte }

/-- The piece-placement loop of `LoadFEN`; `none` models the index panic
when the running square leaves the board. -/
def loadPiecesLoop : List Char → Int → Board → Option Board
  | [], _, b => some b
  | c :: rest, square, b =>
    if c = '/' then loadPiecesLoop rest (square - 16) b
    else if '1' ≤ c ∧ c ≤ '8' then loadPiecesLoop rest (square + charToDigit c) b
    else
      match pieceOfChar c with
      | some tcb =>
        if 0 ≤ square ∧ square < 64 then
          loadPiecesLoop rest (square + 1) (placePiece b tcb.1 tcb.2.1 tcb.2.2 square.toNat)
        else none
      | none => loadPiecesLoop rest square b

def FENStartPosition : String := "rnbqkbnr/pppppppp/8/8/8/8/PPPPPPPP/RNBQKBNR w KQkq - 0 1"

def FENKiwiPete : String := "r3k2r/p1ppqpb1/bn2pnp1/3PN3/1p2P3/2N2Q1p/PPPBBPPP/R3K2R w KQkq - 0 1"

/-- `int(field[0] - '0')` on a FEN clock field. -/
def headDigit (cs : List Char) : Int :=
  match cs with
  | c :: _ => charToDigit c
  | [] => 0

/-- The state-reset prefix of `LoadFEN` (run before any validation, so it
destroys the previous position even when the parse later panics). -/
def loadFENReset (b : Board) : Board :=
  { b with PieceBB := fun _ => 0, Pieces := fun _ => 0, WhiteToMove := true,
           CastlingRights := 0, EPSquare := NoEPSquare,
           undoInfoList := fun _ => default, gamePly := -1 }

/-- `LoadFEN` from the source.  `none` models a Go panic: the explicit
panic on more than six fields, the index panic on fewer than six, the
index panic of the placement loop, and the index panic of
`CoordinateToPos` — no error value is ever returned to the Go caller. -/
def LoadFEN (b : Board) (fen : String) : Option Board :=
  let b0 := loadFENReset b
  let fenFields := fieldsOf fen
  if 6 < fenFields.length then none
  else
    match fenFields with
    | [pieces, turn, castling, epSq, halfMove, fullMove] =>
      let b1 := { b0 with HalfMoveClock := headDigit halfMove,
                          FullMoveCounter := headDigit fullMove }
      match loadPiecesLoop pieces 56 b1 with
      | none => none
      | some b2 =>
        let b3 := if turn = ['b'] then { b2 with WhiteToMove := false } else b2
        match (if epSq ≠ ['-'] then CoordinateToPos epSq else some NoEPSquare) with
        | none => none
        | some ep =>
          let b4 := { b3 with EPSquare := ep }
          let cr :=
            if castling ≠ ['-'] then
              (if castling.contains 'K' then WhiteKingside else 0) |||
              (if castling.contains 'Q' then WhiteQueenside else 0) |||
              (if castling.contains 'k' then BlackKingside else 0) |||
              (if castling.contains 'q' then BlackQueenside else 0)
            else 0
          let b5 := { b4 with CastlingRights := cr }
          some { b5 with Hash := initZobristHash b5 }
    | _ => none

/-! ### Evaluation (from `evaluation.go`) -/

def PawnValue : Int := 100
def KnightValue : Int := 320
def BishopValue : Int := 330
def RookValue : Int := 500
def QueenValue : Int := 975

def PosInf : Int := 2000000
def NegInf : Int := -PosInf
def KingValue : Int := PosInf
def DrawValue : Int := 0

def KingPSTMiddlegameIndex : Nat := 3
def KingPSTEndgameIndex : Nat := 4

/-- The raw rows of `PieceSquareTables` (the Go `[8][64]int` literal:
pawn, knight and bishop tables, then the middlegame and endgame king
tables; the remaining three rows are zero-filled). -/
def pieceSquareTablesData : List (List Int) :=
  [ [ 25, 25, 25, 25, 25, 25, 25, 25,
      0, 0, 0, 0, 0, 0, 0, 0,
      0, 0, 0, 0, 0, 0, 0, 0,
      -5, -5, -5, -5, -5, -5, -5, -5,
      -15, -2, 3, 15, 15, 3, -2, -15,
      -15, 2, 5, 5, 5, 5, 2, -15,
      0, 0, 0, 0, 0, 0, 0, 0,
      0, 0, 0, 0, 0, 0, 0, 0 ],
    [ -15, -15, -15, -15, -15, -15, -15, -15,
      -2, -2, -2, -2, -2, -2, -2, -2,
      -5, 0, 2, 2, 2, 2, 0, -5,
      -5, 0, 15, 25, 25, 15, 0, -5,
      -5, 0, 15, 25, 25, 15, 0, -5,
      -5, 0, 25, 25, 25, 25, 0, -5,
      -2, -2, -2, -2, -2, -2, -2, -2,
      -15, -15, -15, -15, -15, -15, -15, -15 ],
    [ 0, 0, 0, 0, 0, 0, 0, 0,
      0, 0, 0, 0, 0, 0, 0, 0,
      0, 0, 0, 0, 0, 0, 0, 0,
      0, 0, 0, 0, 0, 0, 0, 0,
      0, 0, 0, 0, 0, 0, 0, 0,
      2, 5, 5, 0, 0, 5, 5, 2,
      2, 15, 5, 0, 0, 5, 15, 2,
      2, -5, -25, 0, 0, -25, -5, 2 ],
    [ -75, -75, -75, -75, -75, -75, -75, -75,
      -75, -75, -75, -75, -75, -75, -75, -75,
      -75, -75, -75, -75, -75, -75, -75, -75,
      -75, -75, -75, -75, -75, -75, -75, -75,
      -75, -75, -75, -75, -75, -75, -75, -75,
      -75, -75, -75, -75, -75, -75, -75, -75,
      25, 25, -10, -50, -50, -10, 25, 25,
      75, 50, 0, 0, 0, 0, 50, 75 ],
    [ -10, -10, -10, -10, -10, -10, -10, -10,
      -10, -5, -5, -5, -5, -5, -5, -10,
      -10, 2, 5, 5, 5, 5, 2, -10,
      -10, 2, 5, 25, 25, 5, 2, -10,
      -10, 2, 5, 25, 25, 5, 2, -10,
      -10, 2, 5, 5, 5, 5, 2, -10,
      -10, -5, -5, -5, -5, -5, -5, -10,
      -10, -10, -10, -10, -10, -10, -10, -10 ] ]

/-- `PieceSquareTables[i][s]` from the source (`[8][64]int`, zero-filled
beyond the five written tables). -/
def PieceSquareTables (i s : Nat) : Int := (pieceSquareTablesData.getD i []).getD s 0

/-- `piecesAroundKingValues` from the source. -/
def piecesAroundKingValues (i : Nat) : Int :=
  ([8, 12, 12, 16, 88, 4] : List Int).getD i 0

/-- `getPieceValue` from the source. -/
def getPieceValue (pieceType : Nat) : Int :=
  if pieceType = KingBB then KingValue
  else if pieceType = QueenBB then QueenValue
  else if pieceType = RookBB then RookValue
  else if pieceType = BishopBB then BishopValue
  else if pieceType = KnightBB then KnightValue
  else if pieceType = PawnBB then PawnValue
  else 0

/-- `evaluateMaterial` from the source. -/
def evaluateMaterial (b : Board) (usColor : Nat) : Int :=
  (OnesCount64 (bbGet b.PieceBB PawnBB &&& bbGet b.PieceBB usColor) : Int) * PawnValue +
  (OnesCount64 (bbGet b.PieceBB KnightBB &&& bbGet b.PieceBB usColor) : Int) * KnightValue +
  (OnesCount64 (bbGet b.PieceBB BishopBB &&& bbGet b.PieceBB usColor) : Int) * BishopValue +
  (OnesCount64 (bbGet b.PieceBB RookBB &&& bbGet b.PieceBB usColor) : Int) * RookValue +
  (OnesCount64 (bbGet b.PieceBB QueenBB &&& bbGet b.PieceBB usColor) : Int) * QueenValue

/-- `evaluatePosition` from the source: the piece-square component.  The
loop runs over the side's pieces with rooks and queens masked out (their
two table rows hold the king tables); the king's table value is added
separately, indexed by the raw king square, and the loop index is
`(delta - piecePos) * perspective` with `(delta, perspective)` equal to
`(63, 1)` for White and `(0, -1)` for Black. -/
def evaluatePosition (b : Board) (usColor : Nat) : Int :=
  let usBB := bbGet b.PieceBB usColor &&&
              not64 (bbGet b.PieceBB RookBB ||| bbGet b.PieceBB QueenBB)
  let kingPos := getLSBPos (bbGet b.PieceBB usColor &&& bbGet b.PieceBB KingBB)
  let kingScore := if IsEndgame b then PieceSquareTables KingPSTEndgameIndex kingPos
                   else PieceSquareTables KingPSTMiddlegameIndex kingPos
  let delta : Int := if usColor = WhiteBB then 63 else 0
  let perspective : Int := if usColor = WhiteBB then 1 else -1
  bbLoop 64 usBB kingScore fun piecePos _ score =>
    let pieceType := GetPieceType (sqGet b.Pieces piecePos)
    score + PieceSquareTables pieceType (((delta - piecePos) * perspective).toNat)

/-- `EvaluateKingSaftey` from the source. -/
def EvaluateKingSaftey (b : Board) (usColor enemyColor : Nat) : Int :=
  let kingBB := bbGet b.PieceBB KingBB &&& bbGet b.PieceBB usColor
  let squaresAroundKing := SquaresAroundKing (getLSBPos kingBB) &&& not64 kingBB
  let enemyPiecesAroundKing := squaresAroundKing &&& bbGet b.PieceBB enemyColor
  bbLoop 64 enemyPiecesAroundKing 0 fun pos _ score =>
    score - piecesAroundKingValues (GetPieceType (sqGet b.Pieces pos))

/-- `evaluateSide` from the source. -/
def evaluateSide (b : Board) (usColor enemyColor : Nat) : Int :=
  evaluateMaterial b usColor + evaluatePosition b usColor +
    EvaluateKingSaftey b usColor enemyColor

/-! ### Search (from `search.go`) -/

def SearchDepth : Int := 8
def QuiesenceSearchDepth : Nat := 3
def NullMove : Nat := 0
def TTSize : Nat := 0x100000 * 16

/-- `AlphaFlag`, `BetaFlag`, `ExactFlag`: the `iota` in their `const`
block has already counted four specs, so they are 4, 5, 6. -/
def AlphaFlag : Nat := 4
def BetaFlag : Nat := 5
def ExactFlag : Nat := 6

def NoEntryFlag : Int := -1
def NullHash : Nat := 0
def CaptureBonus : Int := 1000
def FirstKillerBonus : Int := 150
def SecondKillerBonus : Int := 100
def BookMovesDepth : Int := 5

/-- A transposition table entry. -/
structure TTEntry where
  Hash : Nat
  Depth : Int
  Value : Int
  Flag : Nat
  BestMove : Nat
deriving DecidableEq, Inhabited

/-- The `Searcher` of the source.  The transposition table (an array of
`TTSize` entries) is a total function on indices; the killer-move array
is a function from ply to its two slots; the 64×64 history array is a
curried function. -/
structure Searcher where
  Board : Board
  ttable : Nat → TTEntry
  killerMoves : Int → Nat × Nat
  searchHistory : Nat → Nat → Int
  NodesExplored : Nat
  TTHits : Nat
  StopSearch : Bool
  BookMovesLeft : Int

/-- `evaluateBoard` from the source. -/
def evaluateBoard (searcher : Searcher) : Int :=
  let whiteScore := evaluateSide searcher.Board WhiteBB BlackBB
  let blackScore := evaluateSide searcher.Board BlackBB WhiteBB
  if searcher.Board.WhiteToMove then whiteScore - blackScore
  else blackScore - whiteScore

/-- `getEntry` from the source: probe the transposition table, returning
the score to cut with, or `NoEntryFlag` (-1). -/
def getEntry (searcher : Searcher) (depth alpha beta : Int) : Int :=
  let entry := searcher.ttable (searcher.Board.Hash % TTSize)
  if entry.Hash = searcher.Board.Hash then
    if entry.Depth ≥ depth then
      if entry.Flag = ExactFlag then entry.Value
      else if entry.Flag = AlphaFlag ∧ entry.Value ≤ alpha then alpha
      else if entry.Flag = BetaFlag ∧ entry.Value ≥ beta then beta
      else NoEntryFlag
    else NoEntryFlag
  else NoEntryFlag

/-- `setEntry` from the source (it writes hash, value, flag and depth;
the stored best move is left as it was). -/
def setEntry (searcher : Searcher) (depth value : Int) (flag : Nat) : Searcher :=
  let idx := searcher.Board.Hash % TTSize
  let newEntry : TTEntry :=
    { Hash := searcher.Board.Hash, Depth := depth, Value := value, Flag := flag,
      BestMove := (searcher.ttable idx).BestMove }
  { searcher with ttable := Function.update searcher.ttable idx newEntry }

/-- The inner `for j := i+1; j > 0; j--` loop of `sortMoves`; the
argument counts the remaining Go values of `j`. -/
def sortInner : Nat → List Nat × List Int → List Nat × List Int
  | 0, st => st
  | j + 1, st =>
    let moves := st.1
    let scores := st.2
    let st2 :=
      if scores.getD j 0 < scores.getD (j + 1) 0 then
        ((moves.set (j + 1) (moves.getD j 0)).set j (moves.getD (j + 1) 0),
         (scores.set (j + 1) (scores.getD j 0)).set j (scores.getD (j + 1) 0))
      else st
    sortInner j st2

/-- `sortMoves` from the source: sort the move list in place, descending
by score. -/
def sortMoves (moves : List Nat) (moveScores : List Int) : List Nat :=
  ((List.range (moves.length - 1)).foldl (fun st i => sortInner (i + 1) st)
    (moves, moveScores)).1

/-- `orderMoves` from the source: score each move (captures by MVV-LVA
plus a bonus, promotions by piece value, killers, then history) and
sort. -/
def orderMoves (searcher : Searcher) (moves : List Nat) (depth : Int) : List Nat :=
  let moveScores := moves.map fun move =>
    let frm := getMoveFromSq move
    let toSq := getMoveToSq move
    let moveType := getMoveType move
    let movePieceType := GetPieceType (sqGet searcher.Board.Pieces frm)
    let capturePieceType := GetPieceType (sqGet searcher.Board.Pieces toSq)
    if moveType = Attack ∨ moveType = AttackEP then
      getPieceValue capturePieceType - getPieceValue movePieceType + CaptureBonus
    else if moveType = KnightPromotion then KnightValue + getPieceValue capturePieceType
    else if moveType = BishopPromotion then BishopValue + getPieceValue capturePieceType
    else if moveType = RookPromotion then RookValue + getPieceValue capturePieceType
    else if moveType = QueenPromotion then QueenValue + getPieceValue capturePieceType
    else if (searcher.killerMoves (depth - 1)).1 = move then FirstKillerBonus
    else if (searcher.killerMoves (depth - 1)).2 = move then SecondKillerBonus
    else searcher.searchHistory frm toSq
  sortMoves moves moveScores

/-- The move filter of the quiescence loop, exactly as written in the
source: `moveType == Attack || move == AttackEP` — the second disjunct
compares the whole 16-bit move against the constant 2. -/
def quiescenceMoveCond (move : Nat) : Bool :=
  getMoveType move = Attack ∨ move = AttackEP

/-- `quiescence` from the source, with the board, node counter and the
running alpha threaded; an early `return beta` is modelled by the
`Option` component that freezes the remaining iterations. -/
def quiescence : Nat → Searcher → Int → Int → Searcher × Int
  | 0 => fun s _ _ =>
    let stand_pat := evaluateBoard s
    ({ s with NodesExplored := s.NodesExplored + 1 }, stand_pat)
  | d + 1 => fun s alpha beta =>
    let stand_pat := evaluateBoard s
    if stand_pat ≥ beta then (s, beta)
    else
      let alpha1 := if alpha < stand_pat then stand_pat else alpha
      let genSt := GenLegalMoves s.Board
      let s1 := { s with Board := genSt.1 }
      let moves := orderMoves s1 genSt.2 ((d : Int) + 1)
      let res := moves.foldl
        (fun (st : Searcher × Int × Option Int) move =>
          match st.2.2 with
          | some _ => st
          | none =>
            if quiescenceMoveCond move then
              let sA := { st.1 with Board := DoMove st.1.Board move true }
              let recRes := quiescence d sA (-beta) (-st.2.1)
              let score := -recRes.2
              let sB := { recRes.1 with Board := UndoMove recRes.1.Board move }
              if score ≥ beta then (sB, st.2.1, some beta)
              else if score > st.2.1 then (sB, score, none)
              else (sB, st.2.1, none)
            else st)
        (s1, alpha1, none)
      match res.2.2 with
      | some r => (res.1, r)
      | none => (res.1, res.2.1)

/-- The quiet-move history update of `negamax` on an alpha improvement,
exactly as written in the source:
`searchHistory[from][to] = depth * depth` for non-capture moves — an
assignment, not an increment. -/
def historyOnAlphaImprove (history : Nat → Nat → Int) (move : Nat) (depth : Int) :
    Nat → Nat → Int :=
  if getMoveType move ≠ Attack ∧ getMoveType move ≠ AttackEP then
    Function.update history (getMoveFromSq move)
      (Function.update (history (getMoveFromSq move)) (getMoveToSq move) (depth * depth))
  else history

/-- The killer-move update of `negamax` on a beta cutoff for a quiet
move. -/
def killersOnBetaCutoff (killers : Int → Nat × Nat) (move : Nat) (depth : Int) :
    Int → Nat × Nat :=
  if getMoveType move ≠ Attack ∧ getMoveType move ≠ AttackEP then
    Function.update killers (depth - 1) (move, (killers (depth - 1)).1)
  else killers

/-- The `depth == 0` leaf of `negamax` (after the probe): count the node,
evaluate, store an exact entry and drop into quiescence. -/
def negamaxLeaf (s : Searcher) (alpha beta : Int) : Searcher × Int :=
  let s1 := { s with NodesExplored := s.NodesExplored + 1 }
  let score := evaluateBoard s1
  let s2 := setEntry s1 0 score ExactFlag
  quiescence QuiesenceSearchDepth s2 alpha beta

/-- The `depth > 0` body of `negamax` after the probe: generate moves,
handle checkmate and stalemate, then loop over the ordered moves with
alpha-beta, killers and history, finally storing a table entry.  The
recursive call is the `rec` parameter. -/
def negamaxNode (rec : Searcher → Int → Int → Searcher × Int) (depth : Int)
    (s : Searcher) (alpha beta : Int) : Searcher × Int :=
  let genSt := GenLegalMoves s.Board
  let s1 := { s with Board := genSt.1 }
  let moves := genSt.2
  if moves.length = 0 then
    if InCheck s1.Board then
      (setEntry s1 depth (NegInf + (SearchDepth - depth)) ExactFlag,
       NegInf + (SearchDepth - depth))
    else (setEntry s1 depth 0 ExactFlag, 0)
  else
    let ordered := orderMoves s1 moves depth
    let res := ordered.foldl
      (fun (st : Searcher × Int × Nat × Option Int) move =>
        match st.2.2.2 with
        | some _ => st
        | none =>
          let sc := st.1
          let al := st.2.1
          let fl := st.2.2.1
          let sA := { sc with Board := DoMove sc.Board move true }
          let recRes := rec sA (-beta) (-al)
          let score := -recRes.2
          let sB := { recRes.1 with Board := UndoMove recRes.1.Board move }
          if score ≥ beta then
            let sC := setEntry sB depth beta BetaFlag
            let sD := { sC with killerMoves := killersOnBetaCutoff sC.killerMoves move depth }
            (sD, al, fl, some beta)
          else if score > al then
            let sC := { sB with searchHistory := historyOnAlphaImprove sB.searchHistory move depth }
            (sC, score, ExactFlag, none)
          else (sB, al, fl, none))
      (s1, alpha, AlphaFlag, none)
    match res.2.2.2 with
    | some r => (res.1, r)
    | none => (setEntry res.1 depth res.2.1 res.2.2.1, res.2.1)

/-- `negamax` from the source: probe the transposition table first; on a
miss, fall into the leaf (`depth == 0`) or node body. -/
def negamax : Nat → Searcher → Int → Int → Searcher × Int
  | 0 => fun s alpha beta =>
    let score := getEntry s 0 alpha beta
    if score ≠ NoEntryFlag then ({ s with TTHits := s.TTHits + 1 }, score)
    else negamaxLeaf s alpha beta
  | d + 1 => fun s alpha beta =>
    let score := getEntry s ((d : Int) + 1) alpha beta
    if score ≠ NoEntryFlag then ({ s with TTHits := s.TTHits + 1 }, score)
    else negamaxNode (negamax d) ((d : Int) + 1) s alpha beta

/-! ### Well-formedness (the Position invariants of spec section 3) -/

/-- Whether square `s` is occupied in bitboard `x` (square `s` lives at
machine bit `63 - s`). -/
def sqbit (x s : Nat) : Bool := x.testBit (63 - s)

/-- All bitboards of the board are genuine 64-bit words. -/
def wordSized (b : Board) : Prop := ∀ i : Fin 8, b.PieceBB i < U64

/-- The byte stored in the mailbox for piece kind `t` and color bit `c`
(`c = 0` for White, `1` for Black). -/
def pieceByte (t c : Nat) : Nat := (t <<< 5) ||| ((6 + c) <<< 2)

/-- The Position invariants of spec section 3 that reachable boards
satisfy, as far as the theorems below need them: bitboards are 64-bit
words; mailbox and bitboards agree square by square (an empty square has
no bit set in any bitboard, an occupied one has exactly its kind bit and
its color bit set); and the en-passant square, when present, is an empty
square behind a pawn of the side that just made a double push, on the
proper rank for the side to move. -/
def WF (b : Board) : Prop :=
  wordSized b ∧
  (∀ s : Fin 64,
    (b.Pieces s = NoPiece ∧ ∀ j : Fin 8, sqbit (b.PieceBB j) s.val = false) ∨
    (∃ t : Fin 6, ∃ c : Fin 2, b.Pieces s = pieceByte t.val c.val ∧
      ∀ j : Fin 8, sqbit (b.PieceBB j) s.val = (decide (j.val = t.val) || decide (j.val = 6 + c.val)))) ∧
  (b.EPSquare = NoEPSquare ∨
    (b.WhiteToMove = true ∧ b.EPSquare = (b.EPSquare.toNat : Int) ∧
      40 ≤ b.EPSquare.toNat ∧ b.EPSquare.toNat ≤ 47 ∧
      sqGet b.Pieces b.EPSquare.toNat = NoPiece ∧
      sqGet b.Pieces (b.EPSquare.toNat - 8) = Pawn ||| Black) ∨
    (b.WhiteToMove = false ∧ b.EPSquare = (b.EPSquare.toNat : Int) ∧
      16 ≤ b.EPSquare.toNat ∧ b.EPSquare.toNat ≤ 23 ∧
      sqGet b.Pieces b.EPSquare.toNat = NoPiece ∧
      sqGet b.Pieces (b.EPSquare.toNat + 8) = Pawn ||| White))

/-! ### Concrete inputs for the claims -/

/-- The zero value of the Go `Board` struct. -/
def emptyBoard : Board :=
  { PieceBB := fun _ => 0, Pieces := fun _ => 0, WhiteToMove := false, EPSquare := 0,
    HalfMoveCounter := 0, FullMoveCounter := 0, HalfMoveClock := 0, CastlingRights := 0,
    Hash := 0, undoInfoList := fun _ => default, gamePly := 0 }

/-- The board obtained by loading a (well-formed) FEN string into a fresh
board. -/
def boardFromFEN (s : String) : Board := (LoadFEN emptyBoard s).getD emptyBoard

/-- The standard starting position. -/
def startBoard : Board := boardFromFEN FENStartPosition

/-- White: king a1, pawns a2 and b2; Black: king a8.  White to move; the
double push b2b4 creates the en-passant square b3, which the white pawn
on a2 attacks while no black pawn does. -/
def c1Board : Board := boardFromFEN ("k7/8/8/8/8/8/PP6/K7 w - - 0 1")

/-- The double pawn push b2b4 (a `Quiet` move in this engine). -/
def c1Move : Nat := MakeMove 9 25 Quiet

/-- The board after making and unmaking b2b4 on `c1Board`. -/
def c1After : Board := UndoMove (DoMove c1Board c1Move true) c1Move

/-- White: king f6, pawn h7; Black: king b1, knight g8.  The knight
checks the white king; capturing it by h7xg8 with promotion is a legal
evasion. -/
def c2Board : Board := boardFromFEN ("6n1/7P/5K2/8/8/8/8/1k6 w - - 0 1")

/-- The promotion capture h7xg8=Q of the checking knight. -/
def c2Move : Nat := MakeMove 55 62 QueenPromotion

/-- The board after playing h7xg8=Q on `c2Board`. -/
def c2After : Board := DoMove c2Board c2Move true

/-- White: king a1, pawn e5; Black: king a8, pawn d5; en-passant square
d6.  The capture e5xd6 en passant is legal. -/
def c3Board : Board := boardFromFEN ("k7/8/8/3pP3/8/8/8/K7 w - d6 0 1")

/-- The en-passant capture e5xd6. -/
def c3Move : Nat := MakeMove 36 43 AttackEP

/-- Black is checkmated (king a8, white queen b7 guarded by king b6). -/
def mateBoard : Board := boardFromFEN ("k7/1Q6/1K6/8/8/8/8/8 b - - 0 1")

/-- Black is stalemated (scenario 5 of the spec). -/
def stalemateBoard : Board := boardFromFEN ("7k/5Q2/6K1/8/8/8/8/8 b - - 0 1")

/-- A `Searcher` in the state produced by `Init()` with the given board
loaded: zeroed transposition table, killer table and history table. -/
def freshSearcher (b : Board) : Searcher :=
  { Board := b, ttable := fun _ => default, killerMoves := fun _ => (0, 0),
    searchHistory := fun _ _ => 0, NodesExplored := 0, TTHits := 0,
    StopSearch := false, BookMovesLeft := BookMovesDepth }

def mateSearcher : Searcher := freshSearcher mateBoard

def staleSearcher : Searcher := freshSearcher stalemateBoard

/-- A transposition-table entry for the stalemate position whose stored
value is `-1`: a legitimate score equal to the `NoEntryFlag` sentinel. -/
def poisonedEntry : TTEntry :=
  { Hash := stalemateBoard.Hash, Depth := 5, Value := -1, Flag := ExactFlag, BestMove := 0 }

/-- `staleSearcher` with `poisonedEntry` stored in the slot of the
current position. -/
def poisonedSearcher : Searcher :=
  { staleSearcher with
    ttable := Function.update staleSearcher.ttable (stalemateBoard.Hash % TTSize) poisonedEntry }

/-- `staleSearcher` with an exact entry of value 42 stored in the slot of
the current position. -/
def exactSearcher : Searcher :=
  { staleSearcher with
    ttable := Function.update staleSearcher.ttable (stalemateBoard.Hash % TTSize)
      { Hash := stalemateBoard.Hash, Depth := 5, Value := 42, Flag := ExactFlag,
        BestMove := 0 } }

/-- White king a1 and white rook c2 (square 10). -/
def c5RookBoard : Board := boardFromFEN ("8/8/8/8/8/8/2R5/K7 w - - 0 1")

/-- White king a1 alone. -/
def c5BareBoard : Board := boardFromFEN ("8/8/8/8/8/8/8/K7 w - - 0 1")

/-- A history table whose every slot holds 9 (as after a depth-3 quiet
alpha improvement). -/
def c4History : Nat → Nat → Int := fun _ _ => 9

/-- A quiet move a2a3. -/
def c4Move : Nat := MakeMove 8 16 Quiet

/-- A FEN string with only four of the six required fields. -/
def c9BadFEN : String := "k7/8/8/8/8/8/8/K7 w - -"

/-! ### Spec-side comparison definitions -/

/-- Modelled from the spec: the ply distance from the root of a `negamax`
call at remaining depth `depth` inside a search rooted at `rootDepth`
(the root calls `negamax(rootDepth - 1, ..)` at ply 1). -/
def plyFromRoot (rootDepth depth : Int) : Int := rootDepth - depth

/-- Modelled from the spec (claim C6): "few pieces remaining", with the
recommended bound — at most 12 pieces on the board in total. -/
def isEndgameSpec (b : Board) : Prop :=
  OnesCount64 (bbGet b.PieceBB WhiteBB ||| bbGet b.PieceBB BlackBB) ≤ EndgameThreshold

instance (b : Board) : Decidable (isEndgameSpec b) :=
  inferInstanceAs (Decidable (_ ≤ _))

/-- The machine-bit indices set in a 64-bit word, as a finite set. -/
def bitIndices (bb : Nat) : Finset Nat :=
  (Finset.range 64).filter fun t => bb.testBit t

instance (b : Board) : Decidable (wordSized b) :=
  inferInstanceAs (Decidable (∀ i : Fin 8, b.PieceBB i < U64))

instance (b : Board) : Decidable (WF b) := by
  unfold WF
  infer_instance


/-! ### Claim theorems: concrete evaluations -/

/-- C1: make followed by unmake does NOT restore the board bit-for-bit.
On `c1Board` the legal double push b2b4 is made and unmade with state
saving; every enumerated observable field is restored except the Zobrist
hash, which comes back corrupted by a spurious en-passant file key
(`UndoMove` re-evaluates the en-passant hashing condition with the side
to move already flipped back but the pieces still moved). -/
theorem c1_do_undo_not_roundtrip :
    c1Move ∈ (GenLegalMoves c1Board).2 ∧
    c1After.PieceBB = c1Board.PieceBB ∧
    c1After.Pieces = c1Board.Pieces ∧
    c1After.WhiteToMove = c1Board.WhiteToMove ∧
    c1After.CastlingRights = c1Board.CastlingRights ∧
    c1After.EPSquare = c1Board.EPSquare ∧
    c1After.HalfMoveClock = c1Board.HalfMoveClock ∧
    c1After.HalfMoveCounter = c1Board.HalfMoveCounter ∧
    c1After.FullMoveCounter = c1Board.FullMoveCounter ∧
    c1After.gamePly = c1Board.gamePly ∧
    c1After.Hash ≠ c1Board.Hash := by decide

/-- C2: the legal move list is NOT exactly the set of safe moves.  On
`c2Board` the white king is in check from the knight on g8; the promotion
capture h7xg8=Q leaves the white king unattacked (checked with the
engine's own `squareIsAttacked` on the board after `DoMove`), yet
`GenLegalMoves` omits it: the knight-checker branch of the check-evasion
generator only accepts pawn moves whose kind is `Attack`, never the
promotion kinds. -/
theorem c2_legal_evasion_missing :
    InCheck c2Board = true ∧
    c2Move ∉ (GenLegalMoves c2Board).2 ∧
    squareIsAttacked c2After BlackBB
      (bbGet c2After.PieceBB KingBB &&& bbGet c2After.PieceBB WhiteBB)
      (bbGet c2After.PieceBB WhiteBB) = false := by decide

/-- C3: the quiescence move filter, `moveType == Attack || move ==
AttackEP`, compares the full 16-bit move against the constant 2 in its
second disjunct, so a real legal en-passant capture (here e5xd6 on
`c3Board`) is skipped, while an ordinary capture with the same squares
passes. -/
theorem c3_quiescence_skips_ep_captures :
    c3Move ∈ (GenLegalMoves c3Board).2 ∧
    getMoveType c3Move = AttackEP ∧
    quiescenceMoveCond c3Move = false ∧
    quiescenceMoveCond (MakeMove (getMoveFromSq c3Move) (getMoveToSq c3Move) Attack) = true := by
  decide

/-- C6: the endgame test is inverted.  On the starting position, with all
32 pieces on the board, `IsEndgame` returns `true` (the source condition
is `popcount >= 12`), although by the claim's condition — at most 12
pieces remaining — the starting position is not an endgame. -/
theorem c6_endgame_condition_inverted :
    IsEndgame startBoard = true ∧
    OnesCount64 (bbGet startBoard.PieceBB WhiteBB ||| bbGet startBoard.PieceBB BlackBB) = 32 ∧
    ¬ isEndgameSpec startBoard := by decide

/-- C9: loading a malformed FEN neither reports an error nor preserves
the previous position: on a four-field FEN the parse aborts (the Go code
panics indexing the missing fields — modelled by `none`), and the reset
prefix that already ran has wiped every piece of the previously loaded
position. -/
theorem c9_loadfen_panics_after_wipe :
    (LoadFEN startBoard c9BadFEN).isNone = true ∧
    (loadFENReset startBoard).Pieces = emptyBoard.Pieces ∧
    (loadFENReset startBoard).PieceBB = emptyBoard.PieceBB := by decide

/-- C4 (counterexample): the history slot is overwritten, not
accumulated.  With every slot holding 9, a depth-2 quiet alpha
improvement leaves the slot at 4, not at 9 + 2·2 as the claim's
"accumulates increments" requires. -/
theorem c4_history_not_accumulated :
    historyOnAlphaImprove c4History c4Move 2 (getMoveFromSq c4Move) (getMoveToSq c4Move) = 4 ∧
    historyOnAlphaImprove c4History c4Move 2 (getMoveFromSq c4Move) (getMoveToSq c4Move) ≠
      c4History (getMoveFromSq c4Move) (getMoveToSq c4Move) + 2 * 2 := by decide

/-- C4 (amended): on an alpha improvement by a quiet move, the history
slot `searchHistory[from][to]` is set to `depth²`, overwriting its
previous value, and every other slot is unchanged. -/
theorem c4_history_overwrites (history : Nat → Nat → Int) (move : Nat) (depth : Int)
    (h1 : getMoveType move ≠ Attack) (h2 : getMoveType move ≠ AttackEP) :
    historyOnAlphaImprove history move depth (getMoveFromSq move) (getMoveToSq move) =
      depth * depth ∧
    ∀ a b : Nat, ¬(a = getMoveFromSq move ∧ b = getMoveToSq move) →
      historyOnAlphaImprove history move depth a b = history a b := by
  unfold historyOnAlphaImprove
  rw [if_pos ⟨h1, h2⟩]
  refine ⟨by simp, ?_⟩
  intro a b hab
  by_cases ha : a = getMoveFromSq move
  · subst ha
    have hb : b ≠ getMoveToSq move := fun hb => hab ⟨rfl, hb⟩
    simp [Function.update, hb]
  · simp [Function.update, ha]

/-- Witness for `c4_history_overwrites` at the concrete history table and
quiet move of the counterexample. -/
theorem c4_history_overwrites_witness :
    getMoveType c4Move ≠ Attack ∧ getMoveType c4Move ≠ AttackEP ∧
    historyOnAlphaImprove c4History c4Move 2 (getMoveFromSq c4Move) (getMoveToSq c4Move) =
      2 * 2 :=
  ⟨by decide, by decide,
    (c4_history_overwrites c4History c4Move 2 (by decide) (by decide)).1⟩

/-- C7 (counterexample): in a checkmate position with no moves, `negamax`
at remaining depth 1 — as called by a root search of depth 2, one ply
from the root — returns `NegInf + (SearchDepth - depth)` = `NegInf + 7`,
not `-(MateScore - plyFromRoot)` = `-(PosInf - 1)`: the shift uses the
fixed maximum `SearchDepth = 8`, not the ply distance from the root. -/
theorem c7_mate_score_not_ply_adjusted :
    InCheck mateBoard = true ∧
    (GenLegalMoves mateBoard).2 = [] ∧
    (negamax 1 mateSearcher (-(PosInf - 1)) PosInf).2 = NegInf + 7 ∧
    NegInf + 7 ≠ -(PosInf - plyFromRoot 2 1) := by decide

/-- C8 (counterexample): a transposition-table entry whose stored value
is `-1` — a legitimate score — is ignored even though its hash matches,
its depth suffices and its flag is Exact, because `-1` collides with the
`NoEntryFlag` sentinel: `negamax` proceeds to search and returns the
stalemate score 0 instead of the stored value. -/
theorem c8_sentinel_entry_ignored :
    (poisonedSearcher.ttable (poisonedSearcher.Board.Hash % TTSize)).Hash =
      poisonedSearcher.Board.Hash ∧
    (poisonedSearcher.ttable (poisonedSearcher.Board.Hash % TTSize)).Depth ≥ 1 ∧
    (poisonedSearcher.ttable (poisonedSearcher.Board.Hash % TTSize)).Flag = ExactFlag ∧
    (poisonedSearcher.ttable (poisonedSearcher.Board.Hash % TTSize)).Value = -1 ∧
    (negamax 1 poisonedSearcher (-PosInf) (PosInf - 1)).2 = 0 ∧
    (0 : Int) ≠ -1 := by decide

/-- One unfolding step of `negamax` at positive depth: the probe gate in
front of the node body. -/
theorem negamax_succ (d : Nat) (s : Searcher) (alpha beta : Int) :
    negamax (d + 1) s alpha beta =
      if getEntry s ((d : Int) + 1) alpha beta ≠ NoEntryFlag then
        ({ s with TTHits := s.TTHits + 1 }, getEntry s ((d : Int) + 1) alpha beta)
      else negamaxNode (negamax d) ((d : Int) + 1) s alpha beta := rfl

/-- The value of `negamaxNode` when the legal move list is empty:
checkmate or stalemate. -/
theorem negamaxNode_nil (rec : Searcher → Int → Int → Searcher × Int) (depth : Int)
    (s : Searcher) (alpha beta : Int) (b1 : Board)
    (hg : GenLegalMoves s.Board = (b1, [])) :
    negamaxNode rec depth s alpha beta =
      if InCheck b1 then
        (setEntry { s with Board := b1 } depth (NegInf + (SearchDepth - depth)) ExactFlag,
         NegInf + (SearchDepth - depth))
      else (setEntry { s with Board := b1 } depth 0 ExactFlag, 0) := by
  unfold negamaxNode
  rw [hg]
  rfl

/-- C7 (amended): at positive depth, when the probe misses and the legal
move list is empty, `negamax` returns `NegInf + (SearchDepth - depth)` —
a shift by the constant maximum depth 8, which equals the ply distance
from the root only for searches rooted at that maximum — when the side to
move is in check, and 0 (stalemate) otherwise. -/
theorem c7_no_moves_value (d : Nat) (hd : d ≠ 0) (s : Searcher) (alpha beta : Int)
    (hprobe : getEntry s (d : Int) alpha beta = NoEntryFlag)
    (hmoves : (GenLegalMoves s.Board).2 = []) :
    (negamax d s alpha beta).2 =
      if InCheck (GenLegalMoves s.Board).1 then NegInf + (SearchDepth - (d : Int)) else 0 := by
  obtain ⟨d', rfl⟩ : ∃ d', d = d' + 1 :=
    ⟨d - 1, (Nat.succ_pred_eq_of_pos (Nat.pos_of_ne_zero hd)).symm⟩
  have hg : GenLegalMoves s.Board = ((GenLegalMoves s.Board).1, []) := by
    rw [← hmoves]
  push_cast at hprobe ⊢
  rw [negamax_succ, if_neg (by simp [hprobe])]
  rw [negamaxNode_nil (negamax d') ((d' : Int) + 1) s alpha beta _ hg]
  by_cases hc : InCheck (GenLegalMoves s.Board).1
  · rw [if_pos hc, if_pos hc]
  · rw [if_neg hc, if_neg hc]

/-- Witness for `c7_no_moves_value` at the concrete checkmate position,
depth 1, with the window the root search at depth 2 passes down. -/
theorem c7_no_moves_value_witness :
    (1 : Nat) ≠ 0 ∧
    getEntry mateSearcher ((1 : Nat) : Int) (-(PosInf - 1)) PosInf = NoEntryFlag ∧
    (GenLegalMoves mateSearcher.Board).2 = [] ∧
    (negamax 1 mateSearcher (-(PosInf - 1)) PosInf).2 =
      if InCheck (GenLegalMoves mateSearcher.Board).1 then
        NegInf + (SearchDepth - ((1 : Nat) : Int))
      else 0 :=
  ⟨by decide, by decide, by decide,
    c7_no_moves_value 1 (by decide) mateSearcher (-(PosInf - 1)) PosInf (by decide) (by decide)⟩

/-- C8 (amended): the transposition-table probe of `negamax` behaves as
the claim states — Exact entries return the stored value, lower bounds at
least `β` return `β`, upper bounds at most `α` return `α`, anything else
leaves the search unaffected — provided the value the probe would return
is not `-1`, the `NoEntryFlag` sentinel; a probe whose computed result is
`-1` is treated as a miss. -/
theorem c8_tt_probe_semantics (d : Nat) (hd : d ≠ 0) (s : Searcher) (alpha beta : Int) :
    ((s.ttable (s.Board.Hash % TTSize)).Hash = s.Board.Hash →
      (s.ttable (s.Board.Hash % TTSize)).Depth ≥ (d : Int) →
      (((s.ttable (s.Board.Hash % TTSize)).Flag = ExactFlag →
          (s.ttable (s.Board.Hash % TTSize)).Value ≠ -1 →
          (negamax d s alpha beta).2 = (s.ttable (s.Board.Hash % TTSize)).Value) ∧
       ((s.ttable (s.Board.Hash % TTSize)).Flag = BetaFlag →
          (s.ttable (s.Board.Hash % TTSize)).Value ≥ beta → beta ≠ -1 →
          (negamax d s alpha beta).2 = beta) ∧
       ((s.ttable (s.Board.Hash % TTSize)).Flag = AlphaFlag →
          (s.ttable (s.Board.Hash % TTSize)).Value ≤ alpha → alpha ≠ -1 →
          (negamax d s alpha beta).2 = alpha))) ∧
    (getEntry s (d : Int) alpha beta = NoEntryFlag →
      negamax d s alpha beta = negamaxNode (negamax (d - 1)) (d : Int) s alpha beta) := by
  obtain ⟨d', rfl⟩ : ∃ d', d = d' + 1 :=
    ⟨d - 1, (Nat.succ_pred_eq_of_pos (Nat.pos_of_ne_zero hd)).symm⟩
  constructor
  · intro hmatch hdepth
    push_cast at hdepth
    refine ⟨?_, ?_, ?_⟩
    · intro hflag hval
      have hge : getEntry s ((d' : Int) + 1) alpha beta =
          (s.ttable (s.Board.Hash % TTSize)).Value := by
        unfold getEntry
        rw [if_pos hmatch, if_pos hdepth, if_pos hflag]
      rw [negamax_succ, if_pos (by rw [hge]; exact hval), hge]
    · intro hflag hge hbeta
      have hne : (s.ttable (s.Board.Hash % TTSize)).Flag ≠ ExactFlag := by
        rw [hflag]; decide
      have hna : ¬((s.ttable (s.Board.Hash % TTSize)).Flag = AlphaFlag ∧
          (s.ttable (s.Board.Hash % TTSize)).Value ≤ alpha) := by
        rintro ⟨h4, _⟩
        rw [hflag] at h4
        exact absurd h4 (by decide)
      have hgeq : getEntry s ((d' : Int) + 1) alpha beta = beta := by
        unfold getEntry
        rw [if_pos hmatch, if_pos hdepth, if_neg hne, if_neg hna, if_pos ⟨hflag, hge⟩]
      rw [negamax_succ, if_pos (by rw [hgeq]; exact hbeta), hgeq]
    · intro hflag hle halpha
      have hne : (s.ttable (s.Board.Hash % TTSize)).Flag ≠ ExactFlag := by
        rw [hflag]; decide
      have hgeq : getEntry s ((d' : Int) + 1) alpha beta = alpha := by
        unfold getEntry
        rw [if_pos hmatch, if_pos hdepth, if_neg hne, if_pos ⟨hflag, hle⟩]
      rw [negamax_succ, if_pos (by rw [hgeq]; exact halpha), hgeq]
  · intro hprobe
    push_cast at hprobe ⊢
    rw [negamax_succ, if_neg (by simp [hprobe])]

/-- Witness for `c8_tt_probe_semantics` at depth 1 on the stalemate
position with an exact entry whose stored value is 42. -/
theorem c8_tt_probe_semantics_witness :
    (1 : Nat) ≠ 0 ∧
    (exactSearcher.ttable (exactSearcher.Board.Hash % TTSize)).Hash =
      exactSearcher.Board.Hash ∧
    (exactSearcher.ttable (exactSearcher.Board.Hash % TTSize)).Depth ≥ ((1 : Nat) : Int) ∧
    (exactSearcher.ttable (exactSearcher.Board.Hash % TTSize)).Flag = ExactFlag ∧
    (exactSearcher.ttable (exactSearcher.Board.Hash % TTSize)).Value ≠ -1 ∧
    (negamax 1 exactSearcher (-PosInf) (PosInf - 1)).2 =
      (exactSearcher.ttable (exactSearcher.Board.Hash % TTSize)).Value := by
  refine ⟨by decide, by decide, by decide, by decide, by decide, ?_⟩
  exact (((c8_tt_probe_semantics 1 (by decide) exactSearcher (-PosInf) (PosInf - 1)).1
    (by decide) (by decide)).1 (by decide) (by decide))

/-! ### Bit-level lemmas, loop invariants and the frame/evaluation theorems -/

theorem u64_eq : U64 = 2 ^ 64 := rfl

/-- `setSingleBit pos` is the power of two at machine bit `63 - pos`. -/
theorem setSingleBit_eq (pos : Nat) (h : pos ≤ 63) : setSingleBit pos = 2 ^ (63 - pos) := by
  show 0x8000000000000000 >>> pos = 2 ^ (63 - pos)
  rw [Nat.shiftRight_eq_div_pow, show (0x8000000000000000 : Nat) = 2 ^ 63 from rfl,
    Nat.pow_div h (by norm_num)]

theorem setSingleBit_lt (pos : Nat) : setSingleBit pos < U64 := by
  show 0x8000000000000000 >>> pos < U64
  rw [Nat.shiftRight_eq_div_pow]
  calc 0x8000000000000000 / 2 ^ pos ≤ 0x8000000000000000 := Nat.div_le_self _ _
    _ < U64 := by norm_num [U64]

theorem testBit_setSingleBit (pos : Nat) (h : pos ≤ 63) (i : Nat) :
    (setSingleBit pos).testBit i = decide (i = 63 - pos) := by
  rw [setSingleBit_eq pos h, Nat.testBit_two_pow]
  simp [eq_comm]

theorem testBit_setBit (x pos i : Nat) (h : pos ≤ 63) :
    (setBit x pos).testBit i = (x.testBit i || decide (i = 63 - pos)) := by
  show (x ||| setSingleBit pos).testBit i = _
  rw [Nat.testBit_or, testBit_setSingleBit pos h]

theorem testBit_not64 (y i : Nat) (hy : y < U64) :
    (not64 y).testBit i = (decide (i < 64) && !y.testBit i) := by
  show ((2 ^ 64 - 1 : Nat) ^^^ y).testBit i = _
  rw [Nat.testBit_xor, Nat.testBit_two_pow_sub_one]
  by_cases hi : i < 64
  · simp [hi, Bool.xor_comm]
  · have hyy : y.testBit i = false := by
      apply Nat.testBit_lt_two_pow
      calc y < 2 ^ 64 := hy
        _ ≤ 2 ^ i := Nat.pow_le_pow_right (by norm_num) (by omega)
    simp [hi, hyy]

theorem testBit_clearBit (x pos i : Nat) (h : pos ≤ 63) (hx : x < U64) :
    (clearBit x pos).testBit i = (x.testBit i && !decide (i = 63 - pos)) := by
  show (x &&& not64 (setSingleBit pos)).testBit i = _
  rw [Nat.testBit_and, testBit_not64 _ _ (setSingleBit_lt pos), testBit_setSingleBit pos h]
  by_cases hi : i < 64
  · simp [hi]
  · have hxx : x.testBit i = false := by
      apply Nat.testBit_lt_two_pow
      calc x < 2 ^ 64 := hx
        _ ≤ 2 ^ i := Nat.pow_le_pow_right (by norm_num) (by omega)
    simp [hxx]

theorem setBit_lt (x pos : Nat) (hx : x < U64) : setBit x pos < U64 :=
  Nat.or_lt_two_pow hx (setSingleBit_lt pos)

theorem clearBit_lt (x pos : Nat) (hx : x < U64) : clearBit x pos < U64 :=
  Nat.lt_of_le_of_lt Nat.and_le_left hx

/-- Bits of a `maskOfSquares`-style fold. -/
theorem foldl_setBit_testBit (p : Nat → Bool) (l : List Nat) (hl : ∀ s ∈ l, s ≤ 63) :
    ∀ (acc i : Nat),
      ((l.foldl (fun acc s => if p s then setBit acc s else acc) acc).testBit i) =
        (acc.testBit i || l.any fun s => p s && decide (i = 63 - s)) := by
  induction l with
  | nil => intro acc i; simp
  | cons s l ih =>
    intro acc i
    have hs : s ≤ 63 := hl s (by simp)
    have hl2 : ∀ u ∈ l, u ≤ 63 := fun u hu => hl u (by simp [hu])
    show ((l.foldl (fun acc s => if p s then setBit acc s else acc)
        (if p s then setBit acc s else acc)).testBit i) = _
    rw [ih hl2]
    cases hp : p s
    · simp [hp]
    · simp only [hp, if_pos, List.any_cons, Bool.true_and]
      rw [testBit_setBit acc s i hs, Bool.or_assoc]

theorem maskOfSquares_testBit (p : Nat → Bool) (t : Nat) (ht : t ≤ 63) :
    (maskOfSquares p).testBit (63 - t) = p t := by
  show ((List.range 64).foldl (fun acc s => if p s then setBit acc s else acc) 0).testBit
      (63 - t) = p t
  rw [foldl_setBit_testBit p (List.range 64) (by intro s hs; simp at hs; omega)]
  rw [Nat.zero_testBit, Bool.false_or]
  cases hp : p t
  · rw [List.any_eq_false]
    intro s hs
    simp only [List.mem_range] at hs
    cases hps : p s
    · simp
    · simp only [hps, Bool.true_and, decide_eq_true_eq]
      intro hst
      have : s = t := by omega
      rw [this] at hps
      rw [hp] at hps
      exact Bool.false_ne_true hps
  · rw [List.any_eq_true]
    exact ⟨t, by simp; omega, by simp [hp]⟩

theorem maskOfSquares_testBit_ge (p : Nat → Bool) (i : Nat) (hi : 64 ≤ i) :
    (maskOfSquares p).testBit i = false := by
  show ((List.range 64).foldl (fun acc s => if p s then setBit acc s else acc) 0).testBit
      i = false
  rw [foldl_setBit_testBit p (List.range 64) (by intro s hs; simp at hs; omega)]
  rw [Nat.zero_testBit, Bool.false_or, List.any_eq_false]
  intro s hs
  simp only [List.mem_range] at hs
  simp only [Bool.and_eq_true, decide_eq_true_eq, not_and]
  intro _ hst
  omega

theorem maskOfSquares_lt (p : Nat → Bool) : maskOfSquares p < U64 := by
  rw [u64_eq]
  apply Nat.lt_pow_two_of_testBit
  intro i hi
  exact maskOfSquares_testBit_ge p i hi

theorem sqbit_maskOfSquares (p : Nat → Bool) (t : Nat) (ht : t ≤ 63) :
    sqbit (maskOfSquares p) t = p t :=
  maskOfSquares_testBit p t ht

theorem tzAux_succ (f x : Nat) :
    tzAux (f + 1) x = if x % 2 = 1 then 0 else tzAux f (x / 2) + 1 := rfl

theorem tzAux_stable : ∀ f g x, 0 < x → x < 2 ^ f → x < 2 ^ g → tzAux f x = tzAux g x := by
  intro f
  induction f with
  | zero =>
    intro g x hx hf _
    simp at hf
    omega
  | succ f ih =>
    intro g x hx hf hg
    cases g with
    | zero =>
      simp at hg
      omega
    | succ g =>
      rw [tzAux_succ, tzAux_succ]
      by_cases hodd : x % 2 = 1
      · rw [if_pos hodd, if_pos hodd]
      · rw [if_neg hodd, if_neg hodd]
        have hx2 : 0 < x / 2 := by omega
        have hf2 : x / 2 < 2 ^ f := by
          rw [Nat.div_lt_iff_lt_mul (by norm_num)]
          calc x < 2 ^ (f + 1) := hf
            _ = 2 ^ f * 2 := by rw [Nat.pow_succ]
        have hg2 : x / 2 < 2 ^ g := by
          rw [Nat.div_lt_iff_lt_mul (by norm_num)]
          calc x < 2 ^ (g + 1) := hg
            _ = 2 ^ g * 2 := by rw [Nat.pow_succ]
        rw [ih g (x / 2) hx2 hf2 hg2]

theorem tzAux_testBit_self : ∀ f x, 0 < x → x < 2 ^ f → x.testBit (tzAux f x) = true := by
  intro f
  induction f with
  | zero => intro x hx hf; simp at hf; omega
  | succ f ih =>
    intro x hx hf
    rw [tzAux_succ]
    by_cases hodd : x % 2 = 1
    · rw [if_pos hodd]
      simp [Nat.testBit_zero, hodd]
    · rw [if_neg hodd]
      rw [Nat.testBit_succ]
      apply ih
      · omega
      · rw [Nat.div_lt_iff_lt_mul (by norm_num)]
        calc x < 2 ^ (f + 1) := hf
          _ = 2 ^ f * 2 := by rw [Nat.pow_succ]

theorem tzAux_testBit_lt : ∀ f x i, 0 < x → x < 2 ^ f → i < tzAux f x → x.testBit i = false := by
  intro f
  induction f with
  | zero => intro x i hx hf; simp at hf; omega
  | succ f ih =>
    intro x i hx hf hi
    rw [tzAux_succ] at hi
    by_cases hodd : x % 2 = 1
    · rw [if_pos hodd] at hi; omega
    · rw [if_neg hodd] at hi
      cases i with
      | zero => simp [Nat.testBit_zero]; omega
      | succ j =>
        rw [Nat.testBit_succ]
        apply ih (x / 2) j (by omega)
        · rw [Nat.div_lt_iff_lt_mul (by norm_num)]
          calc x < 2 ^ (f + 1) := hf
            _ = 2 ^ f * 2 := by rw [Nat.pow_succ]
        · omega

theorem tz64_testBit_self (x : Nat) (hx : 0 < x) (hlt : x < U64) :
    x.testBit (TrailingZeros64 x) = true :=
  tzAux_testBit_self 64 x hx (u64_eq ▸ hlt)

theorem tz64_testBit_lt (x i : Nat) (hx : 0 < x) (hlt : x < U64)
    (hi : i < TrailingZeros64 x) : x.testBit i = false :=
  tzAux_testBit_lt 64 x i hx (u64_eq ▸ hlt) hi

theorem trailingZeros64_le (x : Nat) (hx : 0 < x) (hlt : x < U64) :
    TrailingZeros64 x ≤ 63 := by
  by_contra h
  have hbit := tz64_testBit_self x hx hlt
  have : x.testBit (TrailingZeros64 x) = false := by
    apply Nat.testBit_lt_two_pow
    calc x < 2 ^ 64 := u64_eq ▸ hlt
      _ ≤ 2 ^ TrailingZeros64 x := Nat.pow_le_pow_right (by norm_num) (by omega)
  rw [this] at hbit
  exact Bool.false_ne_true hbit

theorem land_pred_testBit (x : Nat) :
    0 < x → x < U64 → ∀ i,
      (x &&& (x - 1)).testBit i = (x.testBit i && !decide (i = TrailingZeros64 x)) := by
  induction x using Nat.strong_induction_on with
  | _ x ih =>
    intro hx hlt i
    by_cases hodd : x % 2 = 1
    · have htz : TrailingZeros64 x = 0 := by
        show tzAux 64 x = 0
        rw [show (64 : Nat) = 63 + 1 from rfl, tzAux_succ, if_pos hodd]
      cases i with
      | zero =>
        rw [Nat.testBit_and]
        have h1 : (x - 1) % 2 = 0 := by omega
        simp [Nat.testBit_zero, hodd, h1, htz]
      | succ j =>
        rw [Nat.testBit_and, Nat.testBit_succ, Nat.testBit_succ]
        have h2 : (x - 1) / 2 = x / 2 := by omega
        rw [h2, htz]
        simp
    · have hx2 : 0 < x / 2 := by omega
      have hlt2 : x / 2 < U64 := Nat.lt_of_le_of_lt (Nat.div_le_self _ _) hlt
      have h63 : x / 2 < 2 ^ 63 := by
        rw [Nat.div_lt_iff_lt_mul (by norm_num)]
        calc x < 2 ^ 64 := u64_eq ▸ hlt
          _ = 2 ^ 63 * 2 := by norm_num
      have htz : TrailingZeros64 x = TrailingZeros64 (x / 2) + 1 := by
        show tzAux 64 x = tzAux 64 (x / 2) + 1
        rw [show (64 : Nat) = 63 + 1 from rfl, tzAux_succ, if_neg hodd]
        rw [tzAux_stable 63 (63 + 1) (x / 2) hx2 h63 (by calc x / 2 < 2 ^ 63 := h63
          _ ≤ 2 ^ (63 + 1) := Nat.pow_le_pow_right (by norm_num) (by omega))]
      rw [Nat.testBit_and]
      cases i with
      | zero =>
        have h0 : x % 2 = 0 := by omega
        simp [Nat.testBit_zero, h0]
      | succ j =>
        rw [Nat.testBit_succ, Nat.testBit_succ]
        have h2 : (x - 1) / 2 = x / 2 - 1 := by omega
        rw [h2]
        have := ih (x / 2) (by omega) hx2 hlt2 j
        rw [Nat.testBit_and] at this
        rw [this, htz]
        simp [Nat.succ_inj]


/-- Any word whose set machine bits all lie in a 64-bit word is itself a
64-bit word. -/
theorem lt_u64_of_subset (bb bb0 : Nat) (hbb0 : bb0 < U64)
    (hsub : ∀ i, bb.testBit i = true → bb0.testBit i = true) : bb < U64 := by
  rw [u64_eq]
  apply Nat.lt_pow_two_of_testBit
  intro i hi
  cases hbit : bb.testBit i
  · rfl
  · have := hsub i hbit
    have h0 : bb0.testBit i = false := by
      apply Nat.testBit_lt_two_pow
      calc bb0 < 2 ^ 64 := u64_eq ▸ hbb0
        _ ≤ 2 ^ i := Nat.pow_le_pow_right (by norm_num) hi
    rw [h0] at this
    exact absurd this (by simp)

/-- Every `popLSB` loop preserves a predicate that its body preserves on
squares drawn from (a subset of) the starting word. -/
theorem bbLoop_invariant {σ : Type} (bb0 : Nat) (hbb0 : bb0 < U64) (P : σ → Prop)
    (body : Nat → Nat → σ → σ)
    (hbody : ∀ pos posBB st, P st → pos ≤ 63 → bb0.testBit (63 - pos) = true →
      P (body pos posBB st)) :
    ∀ (fuel bb : Nat) (st : σ), (∀ i, bb.testBit i = true → bb0.testBit i = true) → P st →
      P (bbLoop fuel bb st body) := by
  intro fuel
  induction fuel with
  | zero => intro bb st _ hP; exact hP
  | succ fuel ih =>
    intro bb st hsub hP
    show P (if bb = 0 then st
            else bbLoop fuel (popLSBRest bb) (body (getLSBPos bb) (popLSBBit bb) st) body)
    by_cases hbb : bb = 0
    · rw [if_pos hbb]; exact hP
    · rw [if_neg hbb]
      have hbbpos : 0 < bb := Nat.pos_of_ne_zero hbb
      have hbblt : bb < U64 := lt_u64_of_subset bb bb0 hbb0 hsub
      have htzle : TrailingZeros64 bb ≤ 63 := trailingZeros64_le bb hbbpos hbblt
      have hmem : bb0.testBit (63 - getLSBPos bb) = true := by
        have h1 : 63 - getLSBPos bb = TrailingZeros64 bb := by
          show 63 - (63 - TrailingZeros64 bb) = TrailingZeros64 bb
          omega
        rw [h1]
        exact hsub _ (tz64_testBit_self bb hbbpos hbblt)
      apply ih
      · intro i hi
        apply hsub
        have : (bb &&& (bb - 1)).testBit i = true := hi
        rw [Nat.testBit_and, Bool.and_eq_true] at this
        exact this.1
      · exact hbody _ _ _ hP (by show 63 - TrailingZeros64 bb ≤ 63; omega) hmem

/-- Popping the least significant bit of a nonzero word removes exactly
the trailing-zeros index from its bit set. -/
theorem bitIndices_popLSBRest (bb : Nat) (hbbpos : 0 < bb) (hlt : bb < U64) :
    bitIndices (popLSBRest bb) = (bitIndices bb).erase (TrailingZeros64 bb) := by
  ext t
  simp only [bitIndices, Finset.mem_erase, Finset.mem_filter, Finset.mem_range, popLSBRest,
    land_pred_testBit bb hbbpos hlt t, Bool.and_eq_true, Bool.not_eq_eq_eq_not, Bool.not_true,
    decide_eq_false_iff_not]
  tauto

/-- A `popLSB` accumulation loop of additive shape is the sum of the body
over the set squares (square `s` sits at machine bit `63 - s`). -/
theorem bbLoop_sum (f : Nat → Int) :
    ∀ (fuel bb : Nat) (s0 : Int), bb < U64 → (bitIndices bb).card ≤ fuel →
      bbLoop fuel bb s0 (fun pos _ sc => sc + f pos) =
        s0 + ∑ t ∈ bitIndices bb, f (63 - t) := by
  intro fuel
  induction fuel with
  | zero =>
    intro bb s0 hlt hcard
    have h0 : bitIndices bb = ∅ := Finset.card_eq_zero.mp (Nat.le_zero.mp hcard)
    show s0 = s0 + ∑ t ∈ bitIndices bb, f (63 - t)
    rw [h0, Finset.sum_empty, add_zero]
  | succ fuel ih =>
    intro bb s0 hlt hcard
    show (if bb = 0 then s0
          else bbLoop fuel (popLSBRest bb) (s0 + f (getLSBPos bb)) fun pos _ sc => sc + f pos) =
        s0 + ∑ t ∈ bitIndices bb, f (63 - t)
    by_cases hbb : bb = 0
    · rw [if_pos hbb, hbb]
      have h0 : bitIndices 0 = ∅ := by
        ext t
        simp [bitIndices]
      rw [h0, Finset.sum_empty, add_zero]
    · rw [if_neg hbb]
      have hbbpos : 0 < bb := Nat.pos_of_ne_zero hbb
      have htzle : TrailingZeros64 bb ≤ 63 := trailingZeros64_le bb hbbpos hlt
      have hmem : TrailingZeros64 bb ∈ bitIndices bb := by
        simp only [bitIndices, Finset.mem_filter, Finset.mem_range]
        exact ⟨by omega, tz64_testBit_self bb hbbpos hlt⟩
      have herase : bitIndices (popLSBRest bb) = (bitIndices bb).erase (TrailingZeros64 bb) :=
        bitIndices_popLSBRest bb hbbpos hlt
      have hrest_lt : popLSBRest bb < U64 := Nat.lt_of_le_of_lt Nat.and_le_left hlt
      have hcard2 : (bitIndices (popLSBRest bb)).card ≤ fuel := by
        rw [herase, Finset.card_erase_of_mem hmem]
        have hpos : 0 < (bitIndices bb).card := Finset.card_pos.mpr ⟨_, hmem⟩
        omega
      rw [ih (popLSBRest bb) (s0 + f (getLSBPos bb)) hrest_lt hcard2, herase]
      have hgl : getLSBPos bb = 63 - TrailingZeros64 bb := rfl
      rw [hgl, add_assoc]
      congr 1
      exact Finset.add_sum_erase _ (fun t => f (63 - t)) hmem

/-! ### Mailbox and bitboard-array update algebra -/

theorem sqGet_sqSet_self (f : Fin 64 → Nat) (s v : Nat) : sqGet (sqSet f s v) s = v := by
  unfold sqGet sqSet
  rw [Function.update_same]

theorem sqGet_sqSet_ne (f : Fin 64 → Nat) (s t v : Nat) (h : s % 64 ≠ t % 64) :
    sqGet (sqSet f s v) t = sqGet f t := by
  unfold sqGet sqSet
  rw [Function.update_noteq]
  simp only [ne_eq, Fin.mk.injEq]
  omega

theorem sqSet_sqSet_same (f : Fin 64 → Nat) (s v w : Nat) :
    sqSet (sqSet f s v) s w = sqSet f s w := by
  unfold sqSet
  rw [Function.update_idem]

theorem sqSet_comm (f : Fin 64 → Nat) (s t v w : Nat) (h : s % 64 ≠ t % 64) :
    sqSet (sqSet f s v) t w = sqSet (sqSet f t w) s v := by
  unfold sqSet
  apply Function.update_comm
  simp only [ne_eq, Fin.mk.injEq]
  omega

theorem sqSet_eq_self (f : Fin 64 → Nat) (s v : Nat) (h : sqGet f s = v) : sqSet f s v = f := by
  unfold sqGet at h
  unfold sqSet
  rw [← h]
  exact Function.update_eq_self _ f

theorem bbGet_bbSet_self (f : Fin 8 → Nat) (i j v : Nat) (h : i % 8 = j % 8) :
    bbGet (bbSet f i v) j = v := by
  unfold bbGet bbSet
  rw [show (⟨j % 8, Nat.mod_lt _ (by decide)⟩ : Fin 8) = ⟨i % 8, Nat.mod_lt _ (by decide)⟩ from
    by simp only [Fin.mk.injEq]; omega]
  rw [Function.update_same]

theorem bbGet_bbSet_ne (f : Fin 8 → Nat) (i j v : Nat) (h : i % 8 ≠ j % 8) :
    bbGet (bbSet f i v) j = bbGet f j := by
  unfold bbGet bbSet
  rw [Function.update_noteq]
  simp only [ne_eq, Fin.mk.injEq]
  omega

theorem bbSet_bbSet_same (f : Fin 8 → Nat) (i v w : Nat) :
    bbSet (bbSet f i v) i w = bbSet f i w := by
  unfold bbSet
  rw [Function.update_idem]

theorem bbSet_comm (f : Fin 8 → Nat) (i j v w : Nat) (h : i % 8 ≠ j % 8) :
    bbSet (bbSet f i v) j w = bbSet (bbSet f j w) i v := by
  unfold bbSet
  apply Function.update_comm
  simp only [ne_eq, Fin.mk.injEq]
  omega

theorem bbSet_eq_self (f : Fin 8 → Nat) (i v : Nat) (h : bbGet f i = v) : bbSet f i v = f := by
  unfold bbGet at h
  unfold bbSet
  rw [← h]
  exact Function.update_eq_self _ f

/-- XOR-chain cancellation used by the en-passant hash restore. -/
theorem xor_cancel_chain (h a b c : Nat) : h ^^^ a ^^^ b ^^^ c ^^^ b ^^^ a ^^^ c = h := by
  apply Nat.eq_of_testBit_eq
  intro i
  simp only [Nat.testBit_xor]
  cases h.testBit i <;> cases a.testBit i <;> cases b.testBit i <;> cases c.testBit i <;> rfl

/-- Two boards agreeing on every field are equal. -/
theorem boardExt (a b : Board)
    (h1 : a.PieceBB = b.PieceBB) (h2 : a.Pieces = b.Pieces)
    (h3 : a.WhiteToMove = b.WhiteToMove) (h4 : a.EPSquare = b.EPSquare)
    (h5 : a.HalfMoveCounter = b.HalfMoveCounter) (h6 : a.FullMoveCounter = b.FullMoveCounter)
    (h7 : a.HalfMoveClock = b.HalfMoveClock) (h8 : a.CastlingRights = b.CastlingRights)
    (h9 : a.Hash = b.Hash) (h10 : a.undoInfoList = b.undoInfoList)
    (h11 : a.gamePly = b.gamePly) : a = b := by
  cases a
  cases b
  simp only [Board.mk.injEq]
  exact ⟨h1, h2, h3, h4, h5, h6, h7, h8, h9, h10, h11⟩

/-! ### Word-level restore lemmas for the en-passant legality test -/

/-- Clearing and resetting a set bit restores the word. -/
theorem word_restore_put (x cap : Nat) (hcap : cap ≤ 63) (hx : x < U64)
    (h : x.testBit (63 - cap) = true) :
    setBit (clearBit x cap) cap = x := by
  apply Nat.eq_of_testBit_eq
  intro i
  rw [testBit_setBit _ _ _ hcap, testBit_clearBit _ _ _ hcap hx]
  by_cases hic : i = 63 - cap
  · subst hic
    simp [h]
  · simp [hic]

/-- Moving a set bit to an empty position and back restores the word. -/
theorem word_restore_move (x frm toSq : Nat) (hfrm : frm ≤ 63) (hto : toSq ≤ 63) (hx : x < U64)
    (h1 : x.testBit (63 - frm) = true) (h2 : x.testBit (63 - toSq) = false)
    (hne : frm ≠ toSq) :
    setBit (clearBit (setBit (clearBit x frm) toSq) toSq) frm = x := by
  have hne2 : 63 - frm ≠ 63 - toSq := by omega
  apply Nat.eq_of_testBit_eq
  intro i
  rw [testBit_setBit _ _ _ hfrm,
    testBit_clearBit _ _ _ hto (setBit_lt _ _ (clearBit_lt _ _ hx)),
    testBit_setBit _ _ _ hto, testBit_clearBit _ _ _ hfrm hx]
  by_cases hif : i = 63 - frm
  · subst hif
    simp [h1, hne2]
  · by_cases hit : i = 63 - toSq
    · subst hit
      simp [h2, hif]
    · simp [hif, hit]

/-- The pawn-row word after the four en-passant test edits is restored. -/
theorem word_restore_double (x frm toSq cap : Nat)
    (hfrm : frm ≤ 63) (hto : toSq ≤ 63) (hcap : cap ≤ 63) (hx : x < U64)
    (hne_ft : frm ≠ toSq) (hne_fc : frm ≠ cap) (hne_tc : toSq ≠ cap)
    (h1 : x.testBit (63 - frm) = true) (h2 : x.testBit (63 - toSq) = false)
    (h3 : x.testBit (63 - cap) = true) :
    setBit (setBit (clearBit (clearBit (setBit (clearBit x frm) toSq) cap) toSq) frm) cap
      = x := by
  have hd1 : 63 - frm ≠ 63 - toSq := by omega
  have hd2 : 63 - frm ≠ 63 - cap := by omega
  have hd3 : 63 - toSq ≠ 63 - cap := by omega
  apply Nat.eq_of_testBit_eq
  intro i
  rw [testBit_setBit _ _ _ hcap, testBit_setBit _ _ _ hfrm,
    testBit_clearBit _ _ _ hto
      (clearBit_lt _ _ (setBit_lt _ _ (clearBit_lt _ _ hx))),
    testBit_clearBit _ _ _ hcap (setBit_lt _ _ (clearBit_lt _ _ hx)),
    testBit_setBit _ _ _ hto, testBit_clearBit _ _ _ hfrm hx]
  by_cases hif : i = 63 - frm
  · subst hif
    simp [h1, hd1, hd2]
  · by_cases hit : i = 63 - toSq
    · subst hit
      simp [h2, hif, hd3]
    · by_cases hic : i = 63 - cap
      · subst hic
        simp [h3, hif, hit]
      · simp [hif, hit, hic]

/-! ### Field equations of the mailbox/bitboard editing helpers -/

theorem movePiece_Pieces_eq (b : Board) (frm toSq : Nat) :
    (movePiece b frm toSq).Pieces =
      sqSet (sqSet b.Pieces frm NoPiece) toSq
        ((GetPieceType (sqGet b.Pieces frm) <<< 5) |||
          (getPieceColor (sqGet b.Pieces frm) <<< 2)) := rfl

theorem movePiece_Hash_eq (b : Board) (frm toSq : Nat) :
    (movePiece b frm toSq).Hash =
      b.Hash ^^^ getPieceHash (sqGet b.Pieces frm) frm ^^^
        getPieceHash (sqGet b.Pieces frm) toSq := rfl

theorem removePiece_Pieces_eq (b : Board) (frm : Nat) :
    (removePiece b frm).Pieces = sqSet b.Pieces frm NoPiece := rfl

theorem removePiece_Hash_eq (b : Board) (frm : Nat) :
    (removePiece b frm).Hash = b.Hash ^^^ getPieceHash (sqGet b.Pieces frm) frm := rfl

theorem putPiece_Pieces_eq (b : Board) (t c toSq : Nat) :
    (putPiece b t c toSq).Pieces = sqSet b.Pieces toSq ((t <<< 5) ||| (c <<< 2)) := rfl

theorem putPiece_Hash_eq (b : Board) (t c toSq : Nat) :
    (putPiece b t c toSq).Hash = b.Hash ^^^ getPieceHash ((t <<< 5) ||| (c <<< 2)) toSq := rfl

/-- Read of a bitboard-array write, unconditionally. -/
theorem bbGet_bbSet (f : Fin 8 → Nat) (i j v : Nat) :
    bbGet (bbSet f i v) j = if i % 8 = j % 8 then v else bbGet f j := by
  by_cases h : i % 8 = j % 8
  · rw [if_pos h]
    exact bbGet_bbSet_self f i j v h
  · rw [if_neg h]
    exact bbGet_bbSet_ne f i j v h

/-- The bitboard rows written by `movePiece` on a piece with byte value
`24` (a white pawn). -/
theorem movePiece_PieceBB_wp (b : Board) (frm toSq : Nat) (h : sqGet b.Pieces frm = 24) :
    (movePiece b frm toSq).PieceBB =
      bbSet (bbSet b.PieceBB 0 (setBit (clearBit (bbGet b.PieceBB 0) frm) toSq))
        6 (setBit (clearBit (bbGet b.PieceBB 6) frm) toSq) := by
  show bbSet (bbSet (bbSet (bbSet b.PieceBB (GetPieceType (sqGet b.Pieces frm))
        (clearBit (bbGet b.PieceBB (GetPieceType (sqGet b.Pieces frm))) frm))
      (getPieceColor (sqGet b.Pieces frm))
      (clearBit (bbGet (bbSet b.PieceBB (GetPieceType (sqGet b.Pieces frm))
          (clearBit (bbGet b.PieceBB (GetPieceType (sqGet b.Pieces frm))) frm))
        (getPieceColor (sqGet b.Pieces frm))) frm))
      (GetPieceType (sqGet b.Pieces frm))
      (setBit (bbGet (bbSet (bbSet b.PieceBB (GetPieceType (sqGet b.Pieces frm))
          (clearBit (bbGet b.PieceBB (GetPieceType (sqGet b.Pieces frm))) frm))
        (getPieceColor (sqGet b.Pieces frm))
        (clearBit (bbGet (bbSet b.PieceBB (GetPieceType (sqGet b.Pieces frm))
            (clearBit (bbGet b.PieceBB (GetPieceType (sqGet b.Pieces frm))) frm))
          (getPieceColor (sqGet b.Pieces frm))) frm))
        (GetPieceType (sqGet b.Pieces frm))) toSq))
      (getPieceColor (sqGet b.Pieces frm))
      (setBit (bbGet (bbSet (bbSet (bbSet b.PieceBB (GetPieceType (sqGet b.Pieces frm))
            (clearBit (bbGet b.PieceBB (GetPieceType (sqGet b.Pieces frm))) frm))
          (getPieceColor (sqGet b.Pieces frm))
          (clearBit (bbGet (bbSet b.PieceBB (GetPieceType (sqGet b.Pieces frm))
              (clearBit (bbGet b.PieceBB (GetPieceType (sqGet b.Pieces frm))) frm))
            (getPieceColor (sqGet b.Pieces frm))) frm))
        (GetPieceType (sqGet b.Pieces frm))
        (setBit (bbGet (bbSet (bbSet b.PieceBB (GetPieceType (sqGet b.Pieces frm))
            (clearBit (bbGet b.PieceBB (GetPieceType (sqGet b.Pieces frm))) frm))
          (getPieceColor (sqGet b.Pieces frm))
          (clearBit (bbGet (bbSet b.PieceBB (GetPieceType (sqGet b.Pieces frm))
              (clearBit (bbGet b.PieceBB (GetPieceType (sqGet b.Pieces frm))) frm))
            (getPieceColor (sqGet b.Pieces frm))) frm))
          (GetPieceType (sqGet b.Pieces frm))) toSq))
        (getPieceColor (sqGet b.Pieces frm))) toSq) = _
  rw [h]
  show bbSet (bbSet (bbSet (bbSet b.PieceBB 0 (clearBit (bbGet b.PieceBB 0) frm))
      6 (clearBit (bbGet (bbSet b.PieceBB 0 (clearBit (bbGet b.PieceBB 0) frm)) 6) frm))
      0 (setBit (bbGet (bbSet (bbSet b.PieceBB 0 (clearBit (bbGet b.PieceBB 0) frm))
          6 (clearBit (bbGet (bbSet b.PieceBB 0 (clearBit (bbGet b.PieceBB 0) frm)) 6) frm))
        0) toSq))
      6 (setBit (bbGet (bbSet (bbSet (bbSet b.PieceBB 0 (clearBit (bbGet b.PieceBB 0) frm))
          6 (clearBit (bbGet (bbSet b.PieceBB 0 (clearBit (bbGet b.PieceBB 0) frm)) 6) frm))
          0 (setBit (bbGet (bbSet (bbSet b.PieceBB 0 (clearBit (bbGet b.PieceBB 0) frm))
              6 (clearBit (bbGet (bbSet b.PieceBB 0 (clearBit (bbGet b.PieceBB 0) frm)) 6) frm))
            0) toSq))
        6) toSq) = _
  rw [bbGet_bbSet_ne _ 0 6 _ (by decide)]
  rw [bbGet_bbSet_ne _ 6 0 _ (by decide), bbGet_bbSet_self _ 0 0 _ rfl]
  rw [bbGet_bbSet_ne _ 0 6 _ (by decide), bbGet_bbSet_self _ 6 6 _ rfl]
  rw [bbSet_comm _ 6 0 _ _ (by decide), bbSet_bbSet_same, bbSet_bbSet_same]

/-- The bitboard rows written by `movePiece` on a piece with byte value
`28` (a black pawn). -/
theorem movePiece_PieceBB_bp (b : Board) (frm toSq : Nat) (h : sqGet b.Pieces frm = 28) :
    (movePiece b frm toSq).PieceBB =
      bbSet (bbSet b.PieceBB 0 (setBit (clearBit (bbGet b.PieceBB 0) frm) toSq))
        7 (setBit (clearBit (bbGet b.PieceBB 7) frm) toSq) := by
  show bbSet (bbSet (bbSet (bbSet b.PieceBB (GetPieceType (sqGet b.Pieces frm))
        (clearBit (bbGet b.PieceBB (GetPieceType (sqGet b.Pieces frm))) frm))
      (getPieceColor (sqGet b.Pieces frm)) _) (GetPieceType (sqGet b.Pieces frm)) _)
      (getPieceColor (sqGet b.Pieces frm)) _ = _
  rw [h]
  show bbSet (bbSet (bbSet (bbSet b.PieceBB 0 (clearBit (bbGet b.PieceBB 0) frm))
      7 (clearBit (bbGet (bbSet b.PieceBB 0 (clearBit (bbGet b.PieceBB 0) frm)) 7) frm))
      0 (setBit (bbGet (bbSet (bbSet b.PieceBB 0 (clearBit (bbGet b.PieceBB 0) frm))
          7 (clearBit (bbGet (bbSet b.PieceBB 0 (clearBit (bbGet b.PieceBB 0) frm)) 7) frm))
        0) toSq))
      7 (setBit (bbGet (bbSet (bbSet (bbSet b.PieceBB 0 (clearBit (bbGet b.PieceBB 0) frm))
          7 (clearBit (bbGet (bbSet b.PieceBB 0 (clearBit (bbGet b.PieceBB 0) frm)) 7) frm))
          0 (setBit (bbGet (bbSet (bbSet b.PieceBB 0 (clearBit (bbGet b.PieceBB 0) frm))
              7 (clearBit (bbGet (bbSet b.PieceBB 0 (clearBit (bbGet b.PieceBB 0) frm)) 7) frm))
            0) toSq))
        7) toSq) = _
  rw [bbGet_bbSet_ne _ 0 7 _ (by decide)]
  rw [bbGet_bbSet_ne _ 7 0 _ (by decide), bbGet_bbSet_self _ 0 0 _ rfl]
  rw [bbGet_bbSet_ne _ 0 7 _ (by decide), bbGet_bbSet_self _ 7 7 _ rfl]
  rw [bbSet_comm _ 7 0 _ _ (by decide), bbSet_bbSet_same, bbSet_bbSet_same]

/-- The bitboard rows written by `removePiece` on a piece with byte value
`28` (a black pawn). -/
theorem removePiece_PieceBB_bp (b : Board) (frm : Nat) (h : sqGet b.Pieces frm = 28) :
    (removePiece b frm).PieceBB =
      bbSet (bbSet b.PieceBB 0 (clearBit (bbGet b.PieceBB 0) frm))
        7 (clearBit (bbGet b.PieceBB 7) frm) := by
  show bbSet (bbSet b.PieceBB (GetPieceType (sqGet b.Pieces frm))
      (clearBit (bbGet b.PieceBB (GetPieceType (sqGet b.Pieces frm))) frm))
      (getPieceColor (sqGet b.Pieces frm))
      (clearBit (bbGet (bbSet b.PieceBB (GetPieceType (sqGet b.Pieces frm))
          (clearBit (bbGet b.PieceBB (GetPieceType (sqGet b.Pieces frm))) frm))
        (getPieceColor (sqGet b.Pieces frm))) frm) = _
  rw [h]
  simp only [show GetPieceType 28 = 0 from rfl, show getPieceColor 28 = 7 from rfl]
  rw [bbGet_bbSet_ne _ 0 7 _ (by decide)]

/-- The bitboard rows written by `removePiece` on a piece with byte value
`24` (a white pawn). -/
theorem removePiece_PieceBB_wp (b : Board) (frm : Nat) (h : sqGet b.Pieces frm = 24) :
    (removePiece b frm).PieceBB =
      bbSet (bbSet b.PieceBB 0 (clearBit (bbGet b.PieceBB 0) frm))
        6 (clearBit (bbGet b.PieceBB 6) frm) := by
  show bbSet (bbSet b.PieceBB (GetPieceType (sqGet b.Pieces frm))
      (clearBit (bbGet b.PieceBB (GetPieceType (sqGet b.Pieces frm))) frm))
      (getPieceColor (sqGet b.Pieces frm))
      (clearBit (bbGet (bbSet b.PieceBB (GetPieceType (sqGet b.Pieces frm))
          (clearBit (bbGet b.PieceBB (GetPieceType (sqGet b.Pieces frm))) frm))
        (getPieceColor (sqGet b.Pieces frm))) frm) = _
  rw [h]
  simp only [show GetPieceType 24 = 0 from rfl, show getPieceColor 24 = 6 from rfl]
  rw [bbGet_bbSet_ne _ 0 6 _ (by decide)]

/-- The bitboard rows written by `putPiece` of a black pawn. -/
theorem putPiece_PieceBB_bp (b : Board) (toSq : Nat) :
    (putPiece b PawnBB BlackBB toSq).PieceBB =
      bbSet (bbSet b.PieceBB 0 (setBit (bbGet b.PieceBB 0) toSq))
        7 (setBit (bbGet b.PieceBB 7) toSq) := by
  show bbSet (bbSet b.PieceBB PawnBB (setBit (bbGet b.PieceBB PawnBB) toSq)) BlackBB
      (setBit (bbGet (bbSet b.PieceBB PawnBB (setBit (bbGet b.PieceBB PawnBB) toSq)) BlackBB)
        toSq) = _
  simp only [show PawnBB = 0 from rfl, show BlackBB = 7 from rfl]
  rw [bbGet_bbSet_ne _ 0 7 _ (by decide)]

/-- The bitboard rows written by `putPiece` of a white pawn. -/
theorem putPiece_PieceBB_wp (b : Board) (toSq : Nat) :
    (putPiece b PawnBB WhiteBB toSq).PieceBB =
      bbSet (bbSet b.PieceBB 0 (setBit (bbGet b.PieceBB 0) toSq))
        6 (setBit (bbGet b.PieceBB 6) toSq) := by
  show bbSet (bbSet b.PieceBB PawnBB (setBit (bbGet b.PieceBB PawnBB) toSq)) WhiteBB
      (setBit (bbGet (bbSet b.PieceBB PawnBB (setBit (bbGet b.PieceBB PawnBB) toSq)) WhiteBB)
        toSq) = _
  simp only [show PawnBB = 0 from rfl, show WhiteBB = 6 from rfl]
  rw [bbGet_bbSet_ne _ 0 6 _ (by decide)]

/-- The four-edit en-passant legality probe of `genWhitePawnMoves`
restores the board: moving the white pawn `frm → toSq`, removing the
black pawn behind `toSq`, moving the white pawn back and re-putting the
black pawn is the identity on a consistent board. -/
theorem epRestoreWhite (bc : Board) (frm toSq : Nat)
    (hfrm : frm ≤ 63) (hto1 : 40 ≤ toSq) (hto2 : toSq ≤ 47)
    (hP0 : bbGet bc.PieceBB 0 < U64) (hP6 : bbGet bc.PieceBB 6 < U64)
    (hP7 : bbGet bc.PieceBB 7 < U64)
    (hPfrm : sqGet bc.Pieces frm = 24)
    (hPto : sqGet bc.Pieces toSq = NoPiece)
    (hPcap : sqGet bc.Pieces (toSq - 8) = 28)
    (hb0frm : (bbGet bc.PieceBB 0).testBit (63 - frm) = true)
    (hb6frm : (bbGet bc.PieceBB 6).testBit (63 - frm) = true)
    (hb0to : (bbGet bc.PieceBB 0).testBit (63 - toSq) = false)
    (hb6to : (bbGet bc.PieceBB 6).testBit (63 - toSq) = false)
    (hb0cap : (bbGet bc.PieceBB 0).testBit (63 - (toSq - 8)) = true)
    (hb7cap : (bbGet bc.PieceBB 7).testBit (63 - (toSq - 8)) = true) :
    putPiece (movePiece (removePiece (movePiece bc frm toSq) (toSq - 8)) toSq frm)
      PawnBB BlackBB (toSq - 8) = bc := by
  have hne_ft : frm ≠ toSq := by
    intro he
    rw [he, hPto] at hPfrm
    exact absurd hPfrm (by decide)
  have hne_fc : frm ≠ toSq - 8 := by
    intro he
    rw [he, hPcap] at hPfrm
    exact absurd hPfrm (by decide)
  have hne_tc : toSq ≠ toSq - 8 := by omega
  -- mailbox chain
  have hA_M : (movePiece bc frm toSq).Pieces = sqSet (sqSet bc.Pieces frm NoPiece) toSq 24 := by
    rw [movePiece_Pieces_eq, hPfrm]
    rw [show (GetPieceType 24 <<< 5 ||| getPieceColor 24 <<< 2 : Nat) = 24 from rfl]
  have hrA : sqGet (movePiece bc frm toSq).Pieces (toSq - 8) = 28 := by
    rw [hA_M, sqGet_sqSet_ne _ _ _ _ (by omega), sqGet_sqSet_ne _ _ _ _ (by omega), hPcap]
  have hB_M : (removePiece (movePiece bc frm toSq) (toSq - 8)).Pieces
      = sqSet (sqSet (sqSet bc.Pieces frm NoPiece) toSq 24) (toSq - 8) NoPiece := by
    rw [removePiece_Pieces_eq, hA_M]
  have hrB : sqGet (removePiece (movePiece bc frm toSq) (toSq - 8)).Pieces toSq = 24 := by
    rw [hB_M, sqGet_sqSet_ne _ _ _ _ (by omega), sqGet_sqSet_self]
  have hC_M : (movePiece (removePiece (movePiece bc frm toSq) (toSq - 8)) toSq frm).Pieces
      = sqSet (sqSet (sqSet (sqSet (sqSet bc.Pieces frm NoPiece) toSq 24) (toSq - 8) NoPiece)
          toSq NoPiece) frm 24 := by
    rw [movePiece_Pieces_eq, hrB, hB_M]
    rw [show (GetPieceType 24 <<< 5 ||| getPieceColor 24 <<< 2 : Nat) = 24 from rfl]
  have hM : (putPiece (movePiece (removePiece (movePiece bc frm toSq) (toSq - 8)) toSq frm)
        PawnBB BlackBB (toSq - 8)).Pieces = bc.Pieces := by
    rw [putPiece_Pieces_eq, hC_M]
    rw [show (PawnBB <<< 5 ||| BlackBB <<< 2 : Nat) = 28 from rfl]
    rw [sqSet_comm _ (toSq - 8) toSq NoPiece NoPiece (by omega)]
    rw [sqSet_sqSet_same]
    rw [sqSet_comm _ (toSq - 8) frm NoPiece 24 (by omega)]
    rw [sqSet_sqSet_same]
    rw [sqSet_comm _ toSq frm NoPiece 24 (by omega)]
    rw [sqSet_sqSet_same]
    rw [sqSet_eq_self _ frm 24 hPfrm]
    rw [sqSet_eq_self _ toSq NoPiece hPto]
    rw [sqSet_eq_self _ (toSq - 8) 28 hPcap]
  -- bitboard chain
  have hA_B : (movePiece bc frm toSq).PieceBB =
      bbSet (bbSet bc.PieceBB 0 (setBit (clearBit (bbGet bc.PieceBB 0) frm) toSq))
        6 (setBit (clearBit (bbGet bc.PieceBB 6) frm) toSq) :=
    movePiece_PieceBB_wp bc frm toSq hPfrm
  have hgA0 : bbGet (movePiece bc frm toSq).PieceBB 0
      = setBit (clearBit (bbGet bc.PieceBB 0) frm) toSq := by
    rw [hA_B, bbGet_bbSet_ne _ 6 0 _ (by decide), bbGet_bbSet_self _ 0 0 _ rfl]
  have hgA7 : bbGet (movePiece bc frm toSq).PieceBB 7 = bbGet bc.PieceBB 7 := by
    rw [hA_B, bbGet_bbSet_ne _ 6 7 _ (by decide), bbGet_bbSet_ne _ 0 7 _ (by decide)]
  have hB_B : (removePiece (movePiece bc frm toSq) (toSq - 8)).PieceBB =
      bbSet
        (bbSet (bbSet bc.PieceBB 0
            (clearBit (setBit (clearBit (bbGet bc.PieceBB 0) frm) toSq) (toSq - 8)))
          6 (setBit (clearBit (bbGet bc.PieceBB 6) frm) toSq))
        7 (clearBit (bbGet bc.PieceBB 7) (toSq - 8)) := by
    rw [removePiece_PieceBB_bp _ _ hrA, hgA0, hgA7, hA_B]
    rw [bbSet_comm _ 6 0 _ _ (by decide), bbSet_bbSet_same]
  have hgB0 : bbGet (removePiece (movePiece bc frm toSq) (toSq - 8)).PieceBB 0
      = clearBit (setBit (clearBit (bbGet bc.PieceBB 0) frm) toSq) (toSq - 8) := by
    rw [hB_B]
    show bbGet (bbSet _ 7 _) 0 = _
    rw [bbGet_bbSet_ne _ 7 0 _ (by decide), bbGet_bbSet_ne _ 6 0 _ (by decide),
      bbGet_bbSet_self _ 0 0 _ rfl]
  have hgB6 : bbGet (removePiece (movePiece bc frm toSq) (toSq - 8)).PieceBB 6
      = setBit (clearBit (bbGet bc.PieceBB 6) frm) toSq := by
    rw [hB_B]
    show bbGet (bbSet _ 7 _) 6 = _
    rw [bbGet_bbSet_ne _ 7 6 _ (by decide), bbGet_bbSet_self _ 6 6 _ rfl]
  have hC_B : (movePiece (removePiece (movePiece bc frm toSq) (toSq - 8)) toSq frm).PieceBB =
      bbSet
        (bbSet (bbSet bc.PieceBB 0
            (setBit (clearBit
              (clearBit (setBit (clearBit (bbGet bc.PieceBB 0) frm) toSq) (toSq - 8)) toSq) frm))
          6 (setBit (clearBit (setBit (clearBit (bbGet bc.PieceBB 6) frm) toSq) toSq) frm))
        7 (clearBit (bbGet bc.PieceBB 7) (toSq - 8)) := by
    rw [movePiece_PieceBB_wp _ _ _ hrB, hgB0, hgB6, hB_B]
    show bbSet (bbSet (bbSet (bbSet (bbSet bc.PieceBB 0 _) 6 _) 7 _) 0 _) 6 _ = _
    rw [bbSet_comm _ 7 0 _ _ (by decide), bbSet_comm _ 6 0 _ _ (by decide), bbSet_bbSet_same]
    rw [bbSet_comm _ 7 6 _ _ (by decide), bbSet_bbSet_same]
  have hgC0 : bbGet (movePiece (removePiece (movePiece bc frm toSq) (toSq - 8)) toSq
        frm).PieceBB 0
      = setBit (clearBit
          (clearBit (setBit (clearBit (bbGet bc.PieceBB 0) frm) toSq) (toSq - 8)) toSq) frm := by
    rw [hC_B]
    show bbGet (bbSet _ 7 _) 0 = _
    rw [bbGet_bbSet_ne _ 7 0 _ (by decide), bbGet_bbSet_ne _ 6 0 _ (by decide),
      bbGet_bbSet_self _ 0 0 _ rfl]
  have hgC7 : bbGet (movePiece (removePiece (movePiece bc frm toSq) (toSq - 8)) toSq
        frm).PieceBB 7
      = clearBit (bbGet bc.PieceBB 7) (toSq - 8) := by
    rw [hC_B]
    show bbGet (bbSet _ 7 _) 7 = _
    rw [bbGet_bbSet_self _ 7 7 _ rfl]
  have hBB : (putPiece (movePiece (removePiece (movePiece bc frm toSq) (toSq - 8)) toSq frm)
        PawnBB BlackBB (toSq - 8)).PieceBB = bc.PieceBB := by
    rw [putPiece_PieceBB_bp, hgC0, hgC7, hC_B]
    show bbSet (bbSet (bbSet (bbSet (bbSet bc.PieceBB 0 _) 6 _) 7 _) 0 _) 7 _ = _
    rw [bbSet_comm _ 7 0 _ _ (by decide)]
    rw [bbSet_bbSet_same]
    rw [bbSet_comm _ 6 0 _ _ (by decide)]
    rw [bbSet_bbSet_same]
    rw [word_restore_double (bbGet bc.PieceBB 0) frm toSq (toSq - 8) hfrm (by omega) (by omega)
      hP0 hne_ft hne_fc hne_tc hb0frm hb0to hb0cap]
    rw [word_restore_move (bbGet bc.PieceBB 6) frm toSq hfrm (by omega) hP6 hb6frm hb6to hne_ft]
    rw [word_restore_put (bbGet bc.PieceBB 7) (toSq - 8) (by omega) hP7 hb7cap]
    rw [bbSet_eq_self _ 0 _ rfl]
    rw [bbSet_eq_self _ 6 _ rfl]
    rw [bbSet_eq_self _ 7 _ rfl]
  -- hash chain
  have hA_H : (movePiece bc frm toSq).Hash
      = bc.Hash ^^^ getPieceHash 24 frm ^^^ getPieceHash 24 toSq := by
    rw [movePiece_Hash_eq, hPfrm]
  have hB_H : (removePiece (movePiece bc frm toSq) (toSq - 8)).Hash
      = (movePiece bc frm toSq).Hash ^^^ getPieceHash 28 (toSq - 8) := by
    rw [removePiece_Hash_eq, hrA]
  have hC_H : (movePiece (removePiece (movePiece bc frm toSq) (toSq - 8)) toSq frm).Hash
      = (removePiece (movePiece bc frm toSq) (toSq - 8)).Hash
        ^^^ getPieceHash 24 toSq ^^^ getPieceHash 24 frm := by
    rw [movePiece_Hash_eq, hrB]
  have hH : (putPiece (movePiece (removePiece (movePiece bc frm toSq) (toSq - 8)) toSq frm)
        PawnBB BlackBB (toSq - 8)).Hash = bc.Hash := by
    rw [putPiece_Hash_eq, hC_H, hB_H, hA_H]
    rw [show ((PawnBB <<< 5) ||| (BlackBB <<< 2) : Nat) = 28 from rfl]
    exact xor_cancel_chain bc.Hash _ _ _
  exact boardExt _ _ hBB hM rfl rfl rfl rfl rfl rfl hH rfl rfl

/-- The four-edit en-passant legality probe of `genBlackPawnMoves`
restores the board: moving the black pawn `frm → toSq`, removing the
white pawn behind `toSq`, moving the black pawn back and re-putting the
white pawn is the identity on a consistent board. -/
theorem epRestoreBlack (bc : Board) (frm toSq : Nat)
    (hfrm : frm ≤ 63) (hto1 : 16 ≤ toSq) (hto2 : toSq ≤ 23)
    (hP0 : bbGet bc.PieceBB 0 < U64) (hP6 : bbGet bc.PieceBB 6 < U64)
    (hP7 : bbGet bc.PieceBB 7 < U64)
    (hPfrm : sqGet bc.Pieces frm = 28)
    (hPto : sqGet bc.Pieces toSq = NoPiece)
    (hPcap : sqGet bc.Pieces (toSq + 8) = 24)
    (hb0frm : (bbGet bc.PieceBB 0).testBit (63 - frm) = true)
    (hb7frm : (bbGet bc.PieceBB 7).testBit (63 - frm) = true)
    (hb0to : (bbGet bc.PieceBB 0).testBit (63 - toSq) = false)
    (hb7to : (bbGet bc.PieceBB 7).testBit (63 - toSq) = false)
    (hb0cap : (bbGet bc.PieceBB 0).testBit (63 - (toSq + 8)) = true)
    (hb6cap : (bbGet bc.PieceBB 6).testBit (63 - (toSq + 8)) = true) :
    putPiece (movePiece (removePiece (movePiece bc frm toSq) (toSq + 8)) toSq frm)
      PawnBB WhiteBB (toSq + 8) = bc := by
  have hne_ft : frm ≠ toSq := by
    intro he
    rw [he, hPto] at hPfrm
    exact absurd hPfrm (by decide)
  have hne_fc : frm ≠ toSq + 8 := by
    intro he
    rw [he, hPcap] at hPfrm
    exact absurd hPfrm (by decide)
  have hne_tc : toSq ≠ toSq + 8 := by omega
  -- mailbox chain
  have hA_M : (movePiece bc frm toSq).Pieces = sqSet (sqSet bc.Pieces frm NoPiece) toSq 28 := by
    rw [movePiece_Pieces_eq, hPfrm]
    rw [show (GetPieceType 28 <<< 5 ||| getPieceColor 28 <<< 2 : Nat) = 28 from rfl]
  have hrA : sqGet (movePiece bc frm toSq).Pieces (toSq + 8) = 24 := by
    rw [hA_M, sqGet_sqSet_ne _ _ _ _ (by omega), sqGet_sqSet_ne _ _ _ _ (by omega), hPcap]
  have hB_M : (removePiece (movePiece bc frm toSq) (toSq + 8)).Pieces
      = sqSet (sqSet (sqSet bc.Pieces frm NoPiece) toSq 28) (toSq + 8) NoPiece := by
    rw [removePiece_Pieces_eq, hA_M]
  have hrB : sqGet (removePiece (movePiece bc frm toSq) (toSq + 8)).Pieces toSq = 28 := by
    rw [hB_M, sqGet_sqSet_ne _ _ _ _ (by omega), sqGet_sqSet_self]
  have hC_M : (movePiece (removePiece (movePiece bc frm toSq) (toSq + 8)) toSq frm).Pieces
      = sqSet (sqSet (sqSet (sqSet (sqSet bc.Pieces frm NoPiece) toSq 28) (toSq + 8) NoPiece)
          toSq NoPiece) frm 28 := by
    rw [movePiece_Pieces_eq, hrB, hB_M]
    rw [show (GetPieceType 28 <<< 5 ||| getPieceColor 28 <<< 2 : Nat) = 28 from rfl]
  have hM : (putPiece (movePiece (removePiece (movePiece bc frm toSq) (toSq + 8)) toSq frm)
        PawnBB WhiteBB (toSq + 8)).Pieces = bc.Pieces := by
    rw [putPiece_Pieces_eq, hC_M]
    rw [show (PawnBB <<< 5 ||| WhiteBB <<< 2 : Nat) = 24 from rfl]
    rw [sqSet_comm _ (toSq + 8) toSq NoPiece NoPiece (by omega)]
    rw [sqSet_sqSet_same]
    rw [sqSet_comm _ (toSq + 8) frm NoPiece 28 (by omega)]
    rw [sqSet_sqSet_same]
    rw [sqSet_comm _ toSq frm NoPiece 28 (by omega)]
    rw [sqSet_sqSet_same]
    rw [sqSet_eq_self _ frm 28 hPfrm]
    rw [sqSet_eq_self _ toSq NoPiece hPto]
    rw [sqSet_eq_self _ (toSq + 8) 24 hPcap]
  -- bitboard chain
  have hA_B : (movePiece bc frm toSq).PieceBB =
      bbSet (bbSet bc.PieceBB 0 (setBit (clearBit (bbGet bc.PieceBB 0) frm) toSq))
        7 (setBit (clearBit (bbGet bc.PieceBB 7) frm) toSq) :=
    movePiece_PieceBB_bp bc frm toSq hPfrm
  have hgA0 : bbGet (movePiece bc frm toSq).PieceBB 0
      = setBit (clearBit (bbGet bc.PieceBB 0) frm) toSq := by
    rw [hA_B, bbGet_bbSet_ne _ 7 0 _ (by decide), bbGet_bbSet_self _ 0 0 _ rfl]
  have hgA6 : bbGet (movePiece bc frm toSq).PieceBB 6 = bbGet bc.PieceBB 6 := by
    rw [hA_B, bbGet_bbSet_ne _ 7 6 _ (by decide), bbGet_bbSet_ne _ 0 6 _ (by decide)]
  have hB_B : (removePiece (movePiece bc frm toSq) (toSq + 8)).PieceBB =
      bbSet
        (bbSet (bbSet bc.PieceBB 0
            (clearBit (setBit (clearBit (bbGet bc.PieceBB 0) frm) toSq) (toSq + 8)))
          7 (setBit (clearBit (bbGet bc.PieceBB 7) frm) toSq))
        6 (clearBit (bbGet bc.PieceBB 6) (toSq + 8)) := by
    rw [removePiece_PieceBB_wp _ _ hrA, hgA0, hgA6, hA_B]
    rw [bbSet_comm _ 7 0 _ _ (by decide), bbSet_bbSet_same]
  have hgB0 : bbGet (removePiece (movePiece bc frm toSq) (toSq + 8)).PieceBB 0
      = clearBit (setBit (clearBit (bbGet bc.PieceBB 0) frm) toSq) (toSq + 8) := by
    rw [hB_B]
    show bbGet (bbSet _ 6 _) 0 = _
    rw [bbGet_bbSet_ne _ 6 0 _ (by decide), bbGet_bbSet_ne _ 7 0 _ (by decide),
      bbGet_bbSet_self _ 0 0 _ rfl]
  have hgB7 : bbGet (removePiece (movePiece bc frm toSq) (toSq + 8)).PieceBB 7
      = setBit (clearBit (bbGet bc.PieceBB 7) frm) toSq := by
    rw [hB_B]
    show bbGet (bbSet _ 6 _) 7 = _
    rw [bbGet_bbSet_ne _ 6 7 _ (by decide), bbGet_bbSet_self _ 7 7 _ rfl]
  have hC_B : (movePiece (removePiece (movePiece bc frm toSq) (toSq + 8)) toSq frm).PieceBB =
      bbSet
        (bbSet (bbSet bc.PieceBB 0
            (setBit (clearBit
              (clearBit (setBit (clearBit (bbGet bc.PieceBB 0) frm) toSq) (toSq + 8)) toSq) frm))
          7 (setBit (clearBit (setBit (clearBit (bbGet bc.PieceBB 7) frm) toSq) toSq) frm))
        6 (clearBit (bbGet bc.PieceBB 6) (toSq + 8)) := by
    rw [movePiece_PieceBB_bp _ _ _ hrB, hgB0, hgB7, hB_B]
    show bbSet (bbSet (bbSet (bbSet (bbSet bc.PieceBB 0 _) 7 _) 6 _) 0 _) 7 _ = _
    rw [bbSet_comm _ 6 0 _ _ (by decide), bbSet_comm _ 7 0 _ _ (by decide), bbSet_bbSet_same]
    rw [bbSet_comm _ 6 7 _ _ (by decide), bbSet_bbSet_same]
  have hgC0 : bbGet (movePiece (removePiece (movePiece bc frm toSq) (toSq + 8)) toSq
        frm).PieceBB 0
      = setBit (clearBit
          (clearBit (setBit (clearBit (bbGet bc.PieceBB 0) frm) toSq) (toSq + 8)) toSq) frm := by
    rw [hC_B]
    show bbGet (bbSet _ 6 _) 0 = _
    rw [bbGet_bbSet_ne _ 6 0 _ (by decide), bbGet_bbSet_ne _ 7 0 _ (by decide),
      bbGet_bbSet_self _ 0 0 _ rfl]
  have hgC6 : bbGet (movePiece (removePiece (movePiece bc frm toSq) (toSq + 8)) toSq
        frm).PieceBB 6
      = clearBit (bbGet bc.PieceBB 6) (toSq + 8) := by
    rw [hC_B]
    show bbGet (bbSet _ 6 _) 6 = _
    rw [bbGet_bbSet_self _ 6 6 _ rfl]
  have hBB : (putPiece (movePiece (removePiece (movePiece bc frm toSq) (toSq + 8)) toSq frm)
        PawnBB WhiteBB (toSq + 8)).PieceBB = bc.PieceBB := by
    rw [putPiece_PieceBB_wp, hgC0, hgC6, hC_B]
    show bbSet (bbSet (bbSet (bbSet (bbSet bc.PieceBB 0 _) 7 _) 6 _) 0 _) 6 _ = _
    rw [bbSet_comm _ 6 0 _ _ (by decide)]
    rw [bbSet_bbSet_same]
    rw [bbSet_comm _ 7 0 _ _ (by decide)]
    rw [bbSet_bbSet_same]
    rw [word_restore_double (bbGet bc.PieceBB 0) frm toSq (toSq + 8) hfrm (by omega) (by omega)
      hP0 hne_ft hne_fc hne_tc hb0frm hb0to hb0cap]
    rw [word_restore_move (bbGet bc.PieceBB 7) frm toSq hfrm (by omega) hP7 hb7frm hb7to hne_ft]
    rw [word_restore_put (bbGet bc.PieceBB 6) (toSq + 8) (by omega) hP6 hb6cap]
    rw [bbSet_eq_self _ 0 _ rfl]
    rw [bbSet_eq_self _ 7 _ rfl]
    rw [bbSet_eq_self _ 6 _ rfl]
  -- hash chain
  have hA_H : (movePiece bc frm toSq).Hash
      = bc.Hash ^^^ getPieceHash 28 frm ^^^ getPieceHash 28 toSq := by
    rw [movePiece_Hash_eq, hPfrm]
  have hB_H : (removePiece (movePiece bc frm toSq) (toSq + 8)).Hash
      = (movePiece bc frm toSq).Hash ^^^ getPieceHash 24 (toSq + 8) := by
    rw [removePiece_Hash_eq, hrA]
  have hC_H : (movePiece (removePiece (movePiece bc frm toSq) (toSq + 8)) toSq frm).Hash
      = (removePiece (movePiece bc frm toSq) (toSq + 8)).Hash
        ^^^ getPieceHash 28 toSq ^^^ getPieceHash 28 frm := by
    rw [movePiece_Hash_eq, hrB]
  have hH : (putPiece (movePiece (removePiece (movePiece bc frm toSq) (toSq + 8)) toSq frm)
        PawnBB WhiteBB (toSq + 8)).Hash = bc.Hash := by
    rw [putPiece_Hash_eq, hC_H, hB_H, hA_H]
    rw [show (PawnBB <<< 5 ||| WhiteBB <<< 2 : Nat) = 24 from rfl]
    exact xor_cancel_chain bc.Hash _ _ _
  exact boardExt _ _ hBB hM rfl rfl rfl rfl rfl rfl hH rfl rfl

theorem sqGet_eq_apply (f : Fin 64 → Nat) (s : Nat) (h : s < 64) : sqGet f s = f ⟨s, h⟩ := by
  unfold sqGet
  congr 1
  exact Fin.ext (Nat.mod_eq_of_lt h)

/-- On a well-formed board an empty mailbox square has no bitboard bit. -/
theorem wf_empty_square (b : Board) (hWF : WF b) (s : Nat) (hs : s ≤ 63)
    (hempty : sqGet b.Pieces s = NoPiece) :
    ∀ j : Fin 8, sqbit (b.PieceBB j) s = false := by
  obtain ⟨hws, hsq, hep⟩ := hWF
  intro j
  rcases hsq ⟨s, by omega⟩ with ⟨he, hall⟩ | ⟨t, c, hbyte, hbits⟩
  · exact hall j
  · exfalso
    rw [sqGet_eq_apply b.Pieces s (by omega)] at hempty
    rw [hempty] at hbyte
    revert hbyte
    fin_cases t <;> fin_cases c <;> decide

/-- On a well-formed board a square holding byte `24` (a white pawn) has
exactly the pawn-row and white-row bits. -/
theorem wf_byte24_bits (b : Board) (hWF : WF b) (s : Nat) (hs : s ≤ 63)
    (hbyte24 : sqGet b.Pieces s = 24) :
    ∀ j : Fin 8, sqbit (b.PieceBB j) s = (decide (j.val = 0) || decide (j.val = 6)) := by
  obtain ⟨hws, hsq, hep⟩ := hWF
  intro j
  rcases hsq ⟨s, by omega⟩ with ⟨he, hall⟩ | ⟨t, c, hbyte, hbits⟩
  · exfalso
    rw [sqGet_eq_apply b.Pieces s (by omega), he] at hbyte24
    exact absurd hbyte24 (by decide)
  · rw [sqGet_eq_apply b.Pieces s (by omega), hbyte] at hbyte24
    have htc : t.val = 0 ∧ c.val = 0 := by
      revert hbyte24
      fin_cases t <;> fin_cases c <;> decide
    have hj := hbits j
    rw [htc.1, htc.2] at hj
    exact hj

/-- On a well-formed board a square holding byte `28` (a black pawn) has
exactly the pawn-row and black-row bits. -/
theorem wf_byte28_bits (b : Board) (hWF : WF b) (s : Nat) (hs : s ≤ 63)
    (hbyte28 : sqGet b.Pieces s = 28) :
    ∀ j : Fin 8, sqbit (b.PieceBB j) s = (decide (j.val = 0) || decide (j.val = 7)) := by
  obtain ⟨hws, hsq, hep⟩ := hWF
  intro j
  rcases hsq ⟨s, by omega⟩ with ⟨he, hall⟩ | ⟨t, c, hbyte, hbits⟩
  · exfalso
    rw [sqGet_eq_apply b.Pieces s (by omega), he] at hbyte28
    exact absurd hbyte28 (by decide)
  · rw [sqGet_eq_apply b.Pieces s (by omega), hbyte] at hbyte28
    have htc : t.val = 0 ∧ c.val = 1 := by
      revert hbyte28
      fin_cases t <;> fin_cases c <;> decide
    have hj := hbits j
    rw [htc.1, htc.2] at hj
    exact hj

/-- On a well-formed board a square with both the pawn-row and white-row
bits set holds the white-pawn byte `24`. -/
theorem wf_white_pawn_at (b : Board) (hWF : WF b) (frm : Nat) (hfrm : frm ≤ 63)
    (hp : (bbGet b.PieceBB 0 &&& bbGet b.PieceBB 6).testBit (63 - frm) = true) :
    sqGet b.Pieces frm = 24 := by
  obtain ⟨hws, hsq, hep⟩ := hWF
  rw [Nat.testBit_and, Bool.and_eq_true] at hp
  obtain ⟨hp0, hp6⟩ := hp
  rcases hsq ⟨frm, by omega⟩ with ⟨he, hall⟩ | ⟨t, c, hbyte, hbits⟩
  · exact absurd ((hall ⟨0, by decide⟩).symm.trans hp0) (by decide)
  · have h0 := (hbits ⟨0, by decide⟩).symm.trans hp0
    have h6 := (hbits ⟨6, by decide⟩).symm.trans hp6
    simp only [Bool.or_eq_true, decide_eq_true_eq] at h0 h6
    have hc2 : c.val < 2 := c.isLt
    have ht6 : t.val < 6 := t.isLt
    have ht : t.val = 0 := by
      rcases h0 with h | h
      · omega
      · omega
    have hc : c.val = 0 := by
      rcases h6 with h | h
      · omega
      · omega
    rw [sqGet_eq_apply b.Pieces frm (by omega), hbyte, ht, hc]
    decide

/-- On a well-formed board a square with both the pawn-row and black-row
bits set holds the black-pawn byte `28`. -/
theorem wf_black_pawn_at (b : Board) (hWF : WF b) (frm : Nat) (hfrm : frm ≤ 63)
    (hp : (bbGet b.PieceBB 0 &&& bbGet b.PieceBB 7).testBit (63 - frm) = true) :
    sqGet b.Pieces frm = 28 := by
  obtain ⟨hws, hsq, hep⟩ := hWF
  rw [Nat.testBit_and, Bool.and_eq_true] at hp
  obtain ⟨hp0, hp7⟩ := hp
  rcases hsq ⟨frm, by omega⟩ with ⟨he, hall⟩ | ⟨t, c, hbyte, hbits⟩
  · exact absurd ((hall ⟨0, by decide⟩).symm.trans hp0) (by decide)
  · have h0 := (hbits ⟨0, by decide⟩).symm.trans hp0
    have h7 := (hbits ⟨7, by decide⟩).symm.trans hp7
    simp only [Bool.or_eq_true, decide_eq_true_eq] at h0 h7
    have hc2 : c.val < 2 := c.isLt
    have ht6 : t.val < 6 := t.isLt
    have ht : t.val = 0 := by
      rcases h0 with h | h
      · omega
      · omega
    have hc : c.val = 1 := by
      rcases h7 with h | h
      · omega
      · omega
    rw [sqGet_eq_apply b.Pieces frm (by omega), hbyte, ht, hc]
    decide

/-- `genWhitePawnMoves` hands back the board it was given: the transient
en-passant edits cancel on a well-formed board. -/
theorem genWhitePawnMoves_fst (b : Board) (pawnsBB enemyBB usBB : Nat) (moves : List Nat)
    (hWF : WF b) (hwtm : b.WhiteToMove = true)
    (hsub : ∀ i, pawnsBB.testBit i = true →
      (bbGet b.PieceBB 0 &&& bbGet b.PieceBB 6).testBit i = true) :
    (genWhitePawnMoves b pawnsBB enemyBB usBB b.EPSquare moves).1 = b := by
  have hP0 : bbGet b.PieceBB 0 < U64 := hWF.1 ⟨0, by decide⟩
  have hP6 : bbGet b.PieceBB 6 < U64 := hWF.1 ⟨6, by decide⟩
  have hP7 : bbGet b.PieceBB 7 < U64 := hWF.1 ⟨7, by decide⟩
  have hPW : bbGet b.PieceBB 0 &&& bbGet b.PieceBB 6 < U64 :=
    Nat.lt_of_le_of_lt Nat.and_le_left hP0
  simp only [genWhitePawnMoves]
  refine bbLoop_invariant (bbGet b.PieceBB 0 &&& bbGet b.PieceBB 6) hPW
    (fun st : Board × List Nat => st.1 = b) _ ?_ 64 pawnsBB (b, moves) hsub rfl
  intro frm posBB st hst hfrm63 hfrmbit
  have hbyte_frm : sqGet b.Pieces frm = 24 := wf_white_pawn_at b hWF frm hfrm63 hfrmbit
  have hfb := hfrmbit
  rw [Nat.testBit_and, Bool.and_eq_true] at hfb
  obtain ⟨hb0frm, hb6frm⟩ := hfb
  have hWPA : WhitePawnAttacks frm < U64 := maskOfSquares_lt _
  refine bbLoop_invariant (WhitePawnAttacks frm) hWPA
    (fun st2 : Board × List Nat => st2.1 = b) _ ?_
    64 (WhitePawnAttacks frm) _ (fun i h => h) hst
  intro toSq toBB st2 hst2 hto63 htobit
  dsimp only
  by_cases hep' : (toSq : Int) = b.EPSquare
  · rw [if_pos hep']
    rcases hWF.2.2 with hno | hwhite | hblack
    · exfalso
      rw [hno] at hep'
      rw [show NoEPSquare = (-1 : Int) from rfl] at hep'
      omega
    · obtain ⟨hw, hEPeq, h40, h47, hPempty, hPpawn⟩ := hwhite
      have htoeq : toSq = b.EPSquare.toNat := by omega
      have hPto' : sqGet b.Pieces toSq = NoPiece := by
        rw [htoeq]
        exact hPempty
      have hPcap' : sqGet b.Pieces (toSq - 8) = 28 := by
        rw [htoeq, hPpawn]
        decide
      have hb0to : sqbit (b.PieceBB ⟨0, by decide⟩) toSq = false :=
        wf_empty_square b hWF toSq (by omega) hPto' ⟨0, by decide⟩
      have hb6to : sqbit (b.PieceBB ⟨6, by decide⟩) toSq = false :=
        wf_empty_square b hWF toSq (by omega) hPto' ⟨6, by decide⟩
      have hb0cap : sqbit (b.PieceBB ⟨0, by decide⟩) (toSq - 8) = true := by
        rw [wf_byte28_bits b hWF (toSq - 8) (by omega) hPcap' ⟨0, by decide⟩]
        decide
      have hb7cap : sqbit (b.PieceBB ⟨7, by decide⟩) (toSq - 8) = true := by
        rw [wf_byte28_bits b hWF (toSq - 8) (by omega) hPcap' ⟨7, by decide⟩]
        decide
      rw [hst2]
      exact epRestoreWhite b frm toSq hfrm63 (by omega) (by omega) hP0 hP6 hP7
        hbyte_frm hPto' hPcap' hb0frm hb6frm hb0to hb6to hb0cap hb7cap
    · exfalso
      obtain ⟨hbw, _⟩ := hblack
      rw [hwtm] at hbw
      exact absurd hbw (by decide)
  · rw [if_neg hep']
    split_ifs <;> exact hst2

/-- `genBlackPawnMoves` hands back the board it was given: the transient
en-passant edits cancel on a well-formed board. -/
theorem genBlackPawnMoves_fst (b : Board) (pawnsBB enemyBB usBB : Nat) (moves : List Nat)
    (hWF : WF b) (hwtm : b.WhiteToMove = false)
    (hsub : ∀ i, pawnsBB.testBit i = true →
      (bbGet b.PieceBB 0 &&& bbGet b.PieceBB 7).testBit i = true) :
    (genBlackPawnMoves b pawnsBB enemyBB usBB b.EPSquare moves).1 = b := by
  have hP0 : bbGet b.PieceBB 0 < U64 := hWF.1 ⟨0, by decide⟩
  have hP6 : bbGet b.PieceBB 6 < U64 := hWF.1 ⟨6, by decide⟩
  have hP7 : bbGet b.PieceBB 7 < U64 := hWF.1 ⟨7, by decide⟩
  have hPB : bbGet b.PieceBB 0 &&& bbGet b.PieceBB 7 < U64 :=
    Nat.lt_of_le_of_lt Nat.and_le_left hP0
  simp only [genBlackPawnMoves]
  refine bbLoop_invariant (bbGet b.PieceBB 0 &&& bbGet b.PieceBB 7) hPB
    (fun st : Board × List Nat => st.1 = b) _ ?_ 64 pawnsBB (b, moves) hsub rfl
  intro frm posBB st hst hfrm63 hfrmbit
  have hbyte_frm : sqGet b.Pieces frm = 28 := wf_black_pawn_at b hWF frm hfrm63 hfrmbit
  have hfb := hfrmbit
  rw [Nat.testBit_and, Bool.and_eq_true] at hfb
  obtain ⟨hb0frm, hb7frm⟩ := hfb
  have hBPA : BlackPawnAttacks frm < U64 := maskOfSquares_lt _
  refine bbLoop_invariant (BlackPawnAttacks frm) hBPA
    (fun st2 : Board × List Nat => st2.1 = b) _ ?_
    64 (BlackPawnAttacks frm) _ (fun i h => h) hst
  intro toSq toBB st2 hst2 hto63 htobit
  dsimp only
  by_cases hep' : (toSq : Int) = b.EPSquare
  · rw [if_pos hep']
    rcases hWF.2.2 with hno | hwhite | hblack
    · exfalso
      rw [hno] at hep'
      rw [show NoEPSquare = (-1 : Int) from rfl] at hep'
      omega
    · exfalso
      obtain ⟨hbw, _⟩ := hwhite
      rw [hwtm] at hbw
      exact absurd hbw (by decide)
    · obtain ⟨hw, hEPeq, h16, h23, hPempty, hPpawn⟩ := hblack
      have htoeq : toSq = b.EPSquare.toNat := by omega
      have hPto' : sqGet b.Pieces toSq = NoPiece := by
        rw [htoeq]
        exact hPempty
      have hPcap' : sqGet b.Pieces (toSq + 8) = 24 := by
        rw [htoeq, hPpawn]
        decide
      have hb0to : sqbit (b.PieceBB ⟨0, by decide⟩) toSq = false :=
        wf_empty_square b hWF toSq (by omega) hPto' ⟨0, by decide⟩
      have hb7to : sqbit (b.PieceBB ⟨7, by decide⟩) toSq = false :=
        wf_empty_square b hWF toSq (by omega) hPto' ⟨7, by decide⟩
      have hb0cap : sqbit (b.PieceBB ⟨0, by decide⟩) (toSq + 8) = true := by
        rw [wf_byte24_bits b hWF (toSq + 8) (by omega) hPcap' ⟨0, by decide⟩]
        decide
      have hb6cap : sqbit (b.PieceBB ⟨6, by decide⟩) (toSq + 8) = true := by
        rw [wf_byte24_bits b hWF (toSq + 8) (by omega) hPcap' ⟨6, by decide⟩]
        decide
      rw [hst2]
      exact epRestoreBlack b frm toSq hfrm63 (by omega) (by omega) hP0 hP6 hP7
        hbyte_frm hPto' hPcap' hb0frm hb7frm hb0to hb7to hb0cap hb6cap
  · rw [if_neg hep']
    split_ifs <;> exact hst2

/-- `genPawnMoves` hands back the board it was given. -/
theorem genPawnMoves_fst (b : Board) (pawnsBB enemyBB usBB : Nat) (moves : List Nat)
    (hWF : WF b)
    (hsub : ∀ i, pawnsBB.testBit i = true →
      (bbGet b.PieceBB 0 &&&
        bbGet b.PieceBB (if b.WhiteToMove then WhiteBB else BlackBB)).testBit i = true) :
    (genPawnMoves b pawnsBB enemyBB usBB moves).1 = b := by
  unfold genPawnMoves
  cases hwtm : b.WhiteToMove
  · rw [if_neg Bool.false_ne_true]
    apply genBlackPawnMoves_fst b pawnsBB enemyBB usBB moves hWF hwtm
    intro i hi
    have hthis := hsub i hi
    rw [hwtm, if_neg Bool.false_ne_true] at hthis
    exact hthis
  · rw [if_pos rfl]
    apply genWhitePawnMoves_fst b pawnsBB enemyBB usBB moves hWF hwtm
    intro i hi
    have hthis := hsub i hi
    rw [hwtm, if_pos rfl] at hthis
    exact hthis

/-- `genCheckEvasionMoves` hands back the board it was given. -/
theorem genCheckEvasionMoves_fst (b : Board) (enemyColor usColor : Nat)
    (kingBB checkersBB notPinnedMask : Nat) (moves : List Nat)
    (hWF : WF b) (hus : usColor = if b.WhiteToMove then WhiteBB else BlackBB) :
    (genCheckEvasionMoves b enemyColor usColor kingBB checkersBB notPinnedMask moves).1
      = b := by
  simp only [genCheckEvasionMoves]
  have hpw : (genPawnMoves b
      (bbGet b.PieceBB PawnBB &&& bbGet b.PieceBB usColor &&& notPinnedMask)
      (bbGet b.PieceBB enemyColor) (bbGet b.PieceBB usColor) []).1 = b := by
    apply genPawnMoves_fst b _ _ _ _ hWF
    intro i hi
    rw [Nat.testBit_and, Bool.and_eq_true] at hi
    rw [← hus]
    exact hi.1
  split_ifs <;> exact hpw

/-- `GenLegalMoves` hands back the board it was given: the en-passant
legality test inside pawn-move generation is transient. -/
theorem GenLegalMoves_fst (b : Board) (hWF : WF b) : (GenLegalMoves b).1 = b := by
  simp only [GenLegalMoves]
  split_ifs with h1 h2 h3
  · apply genPawnMoves_fst b _ _ _ _ hWF
    intro i hi
    rw [Nat.testBit_and, Bool.and_eq_true] at hi
    rw [if_pos h1]
    exact hi.1
  · exact genCheckEvasionMoves_fst b _ _ _ _ _ _ hWF (by rw [if_pos h1])
  · apply genPawnMoves_fst b _ _ _ _ hWF
    intro i hi
    rw [Nat.testBit_and, Bool.and_eq_true] at hi
    rw [if_neg h1]
    exact hi.1
  · exact genCheckEvasionMoves_fst b _ _ _ _ _ _ hWF (by rw [if_neg h1])

theorem bitIndices_card_le (bb : Nat) : (bitIndices bb).card ≤ 64 := by
  unfold bitIndices
  calc ((Finset.range 64).filter fun t => bb.testBit t).card
      ≤ (Finset.range 64).card := Finset.card_filter_le _ _
    _ = 64 := Finset.card_range 64

/-- C10: `GenLegalMoves` leaves every field of the board unchanged — the
transient en-passant edits of the pawn generators (movePiece/removePiece
followed by the reverse edits) cancel exactly, bitboards, mailbox and
Zobrist hash included, on any board satisfying the Position invariants. -/
theorem c10_board_restored (b : Board) (hWF : WF b) : (GenLegalMoves b).1 = b :=
  GenLegalMoves_fst b hWF

theorem c10_board_restored_witness :
    WF c3Board ∧ (GenLegalMoves c3Board).1 = c3Board :=
  ⟨by decide, c10_board_restored c3Board (by decide)⟩

/-- C5 counterexample: the piece-square component does NOT add a per-kind
value for every piece.  Adding a white rook on c2 leaves
`evaluatePosition` unchanged (rooks and queens are masked out of the
loop), and the lone-king score is the middlegame king-table entry at the
raw square 0 (a1) rather than at the mirrored index 63, which differs. -/
theorem c5_rook_pst_ignored :
    evaluatePosition c5RookBoard WhiteBB = evaluatePosition c5BareBoard WhiteBB ∧
    evaluatePosition c5BareBoard WhiteBB = PieceSquareTables KingPSTMiddlegameIndex 0 ∧
    PieceSquareTables KingPSTMiddlegameIndex 63 ≠
      PieceSquareTables KingPSTMiddlegameIndex 0 := by decide

/-- C5 (amended): what the piece-square component actually computes — the
king-table entry at the raw king square, plus, over the side's pieces
with rooks and queens masked out, the table row of the piece's kind at
index `(delta - square) * perspective` (`delta, perspective` =
`63, 1` for White and `0, -1` for Black; square `s` is machine bit
`63 - s`). -/
theorem c5_piece_square_sum (b : Board) (usColor : Nat) (h : wordSized b) :
    evaluatePosition b usColor =
      (if IsEndgame b then
        PieceSquareTables KingPSTEndgameIndex
          (getLSBPos (bbGet b.PieceBB usColor &&& bbGet b.PieceBB KingBB))
      else
        PieceSquareTables KingPSTMiddlegameIndex
          (getLSBPos (bbGet b.PieceBB usColor &&& bbGet b.PieceBB KingBB))) +
      ∑ t ∈ bitIndices (bbGet b.PieceBB usColor &&&
          not64 (bbGet b.PieceBB RookBB ||| bbGet b.PieceBB QueenBB)),
        PieceSquareTables (GetPieceType (sqGet b.Pieces (63 - t)))
          ((((if usColor = WhiteBB then (63 : Int) else 0) - ((63 - t : Nat) : Int)) *
            (if usColor = WhiteBB then 1 else -1)).toNat) := by
  simp only [evaluatePosition]
  exact bbLoop_sum _ 64 _ _ (Nat.lt_of_le_of_lt Nat.and_le_left (h _)) (bitIndices_card_le _)

theorem c5_piece_square_sum_witness :
    wordSized c5RookBoard ∧
    evaluatePosition c5RookBoard WhiteBB =
      (if IsEndgame c5RookBoard then
        PieceSquareTables KingPSTEndgameIndex
          (getLSBPos (bbGet c5RookBoard.PieceBB WhiteBB &&& bbGet c5RookBoard.PieceBB KingBB))
      else
        PieceSquareTables KingPSTMiddlegameIndex
          (getLSBPos (bbGet c5RookBoard.PieceBB WhiteBB &&&
            bbGet c5RookBoard.PieceBB KingBB))) +
      ∑ t ∈ bitIndices (bbGet c5RookBoard.PieceBB WhiteBB &&&
          not64 (bbGet c5RookBoard.PieceBB RookBB ||| bbGet c5RookBoard.PieceBB QueenBB)),
        PieceSquareTables (GetPieceType (sqGet c5RookBoard.Pieces (63 - t)))
          ((((if WhiteBB = WhiteBB then (63 : Int) else 0) - ((63 - t : Nat) : Int)) *
            (if WhiteBB = WhiteBB then 1 else -1)).toNat) :=
  ⟨by decide, c5_piece_square_sum c5RookBoard WhiteBB (by decide)⟩

end Blunder
